import Mathlib

/-!
# Verification of the DoubleJIT-VM translation core

A shallow embedding of the RISC-V → WAT lowering engine and auxiliary
components of the DoubleJIT-VM repository, together with proofs about the
emitted code and the supporting passes.

The WAT text produced by `WasmEmitter` (src/middleend/emit_wasm.rs) is
embedded as lists of structured WAT operations (`Wat`): each operation
corresponds to one emitted line of WAT text, and structured `if` blocks
stand for the flat `if` / `else` / `end` lines of the text.  A small-step
executor (`run`) gives the WebAssembly semantics of those operations over a
machine state of i64 globals, an i32 exit flag and a byte-addressed linear
memory.
-/

namespace DoubleJit

/-- Two's-complement wrap of an integer into the signed 64-bit range
`[-2^63, 2^63)`, the value set of a WASM `i64`. -/
def wrap64 (n : Int) : Int := (n + 2 ^ 63) % 2 ^ 64 - 2 ^ 63

/-- Two's-complement wrap into the signed 32-bit range `[-2^31, 2^31)`. -/
def wrap32 (n : Int) : Int := (n + 2 ^ 31) % 2 ^ 32 - 2 ^ 31

/-- The unsigned 64-bit reading of an i64 value. -/
def toU64 (n : Int) : Int := n % 2 ^ 64

/-- The unsigned 32-bit reading of an i32 value. -/
def toU32 (n : Int) : Int := n % 2 ^ 32

/-- Truncated (toward-zero) integer quotient, the WASM `div_s` rounding. -/
def tquot (a b : Int) : Int := (a.sign * b.sign) * ((a.natAbs / b.natAbs : Nat) : Int)

/-- Truncated remainder: sign follows the dividend, the WASM `rem_s` rule. -/
def trem (a b : Int) : Int := a - b * tquot a b

theorem wrap64_idem (n : Int) : wrap64 (wrap64 n) = wrap64 n := by
  unfold wrap64
  have h2 : (0:Int) < 2 ^ 64 := by positivity
  omega

theorem wrap64_add_left (a b : Int) : wrap64 (wrap64 a + b) = wrap64 (a + b) := by
  unfold wrap64
  have h2 : (0:Int) < 2 ^ 64 := by positivity
  omega

theorem wrap32_idem (n : Int) : wrap32 (wrap32 n) = wrap32 n := by
  unfold wrap32
  have h2 : (0:Int) < 2 ^ 32 := by positivity
  omega

/-- Pointwise function update used for register files and linear memory. -/
def upd {α : Type} (f : Nat → α) (k : Nat) (v : α) : Nat → α :=
  fun i => if i = k then v else f i

theorem upd_same {α : Type} (f : Nat → α) (k : Nat) (v : α) : upd f k v k = v := by
  simp [upd]

theorem upd_other {α : Type} (f : Nat → α) (k i : Nat) (v : α) (h : i ≠ k) :
    upd f k v i = f i := by
  simp [upd, h]

/-- The mutable globals of the emitted module that the per-instruction WAT
fragments mention: `$x0..$x31`, `$pc`, `$instr_count`, `$exit_flag` and the
vector CSRs `$vl`, `$vtype` (src/middleend/wasm_module.rs lines 124-175). -/
inductive Glb where
  | x : Nat → Glb
  | pc : Glb
  | instrCount : Glb
  | exitFlag : Glb
  | vl : Glb
  | vtype : Glb
  deriving DecidableEq, Repr

/-- One structured WAT operation.  Each constructor matches one line of the
WAT text written by `WasmEmitter` (src/middleend/emit_wasm.rs); `if_ t e`
stands for the flat `if` … `else` … `end` line group with then-lines `t` and
else-lines `e` (an `if` without `else` has `e = []`). -/
inductive Wat where
  | comment : String → Wat
  | i64const : Int → Wat
  | i32const : Int → Wat
  | globalGet : Glb → Wat
  | globalSet : Glb → Wat
  | i64add | i64sub | i64mul | i64and | i64or | i64xor : Wat
  | i64shl | i64shrU | i64shrS : Wat
  | i64eq | i64ne | i64ltS | i64ltU | i64geS | i64geU | i64eqz : Wat
  | i64divS | i64divU | i64remS | i64remU : Wat
  | i64extendI32S | i64extendI32U | i32wrapI64 : Wat
  | i32add | i32sub | i32mul | i32and | i32shl | i32shrU | i32shrS | i32eqz : Wat
  | i32divS | i32divU | i32remS | i32remU : Wat
  | i32load | i32load8S | i32load8U | i32load16S | i32load16U | i64load : Wat
  | i32store | i32store8 | i32store16 | i64store : Wat
  | callVaddrToOffset : Wat
  | callSyscall : Wat
  | if_ : List Wat → List Wat → Wat
  deriving Repr

/-- Machine state of the emitted module as seen by a per-instruction
fragment: the 32 i64 register globals, `$pc`, `$instr_count`, the i32
`$exit_flag`, the vector CSR globals and the byte-addressed linear memory. -/
structure WState where
  x : Nat → Int
  pc : Int
  instrCount : Int
  exitFlag : Int
  vl : Int
  vtype : Int
  mem : Nat → Nat

/-- Read a global, normalised to its WASM value range. -/
def readG (g : Glb) (s : WState) : Int :=
  match g with
  | .x n => wrap64 (s.x n)
  | .pc => wrap64 s.pc
  | .instrCount => wrap64 s.instrCount
  | .exitFlag => wrap32 s.exitFlag
  | .vl => wrap64 s.vl
  | .vtype => wrap64 s.vtype

/-- Write a global. -/
def setG (g : Glb) (v : Int) (s : WState) : WState :=
  match g with
  | .x n => { s with x := upd s.x n v }
  | .pc => { s with pc := v }
  | .instrCount => { s with instrCount := v }
  | .exitFlag => { s with exitFlag := v }
  | .vl => { s with vl := v }
  | .vtype => { s with vtype := v }

/-- The host syscall import.  The handler installed by the runtime
(src/backend/wasm_builder.rs, `RiscVRuntime::syscall_handler`) receives the
seven i64 arguments and may read and write linear memory and raise the exit
flag (through the exported `set_exit_flag`); it has no access to the
register, `$pc` or `$instr_count` globals.  The executor is parametric in
this import. -/
def Sys : Type :=
  Int → List Int → (Nat → Nat) → Int → Int × (Nat → Nat) × Int

/-- Read a little-endian number of `k` bytes at address `a`. -/
def readLE (m : Nat → Nat) (a : Nat) : Nat → Nat
  | 0 => 0
  | k + 1 => m a % 256 + 256 * readLE m (a + 1) k

/-- Write the `k` low-endian bytes of `v` at address `a`. -/
def writeLE (m : Nat → Nat) (a : Nat) (v : Nat) : Nat → (Nat → Nat)
  | 0 => m
  | k + 1 => writeLE (upd m a (v % 256)) (a + 1) (v / 256) k

/-- Sign-extend a byte value. -/
def sext8 (b : Nat) : Int := if b % 256 < 128 then (b % 256 : Int) else (b % 256 : Int) - 256

/-- Sign-extend a 16-bit value. -/
def sext16 (b : Nat) : Int :=
  if b % 65536 < 32768 then (b % 65536 : Int) else (b % 65536 : Int) - 65536

/-- Execute a list of WAT operations on a value stack (head = top of stack)
and a machine state.  `none` is a trap (or a stack underflow, which emitted
fragments never produce).  Division traps on a zero divisor and `div_s`
additionally on the `-2^63 / -1` overflow, as in WebAssembly. -/
def run (sys : Sys) : List Wat → List Int → WState → Option (List Int × WState)
  | [], stk, s => some (stk, s)
  | .comment _ :: r, stk, s => run sys r stk s
  | .i64const n :: r, stk, s => run sys r (wrap64 n :: stk) s
  | .i32const n :: r, stk, s => run sys r (wrap32 n :: stk) s
  | .globalGet g :: r, stk, s => run sys r (readG g s :: stk) s
  | .globalSet g :: r, v :: stk, s => run sys r stk (setG g v s)
  | .i64add :: r, b :: a :: stk, s => run sys r (wrap64 (a + b) :: stk) s
  | .i64sub :: r, b :: a :: stk, s => run sys r (wrap64 (a - b) :: stk) s
  | .i64mul :: r, b :: a :: stk, s => run sys r (wrap64 (a * b) :: stk) s
  | .i64and :: r, b :: a :: stk, s => run sys r (wrap64 (Int.land a b) :: stk) s
  | .i64or :: r, b :: a :: stk, s => run sys r (wrap64 (Int.lor a b) :: stk) s
  | .i64xor :: r, b :: a :: stk, s => run sys r (wrap64 (Int.xor a b) :: stk) s
  | .i64shl :: r, b :: a :: stk, s =>
      run sys r (wrap64 (a * 2 ^ (toU64 b % 64).toNat) :: stk) s
  | .i64shrU :: r, b :: a :: stk, s =>
      run sys r (wrap64 (toU64 a / 2 ^ (toU64 b % 64).toNat) :: stk) s
  | .i64shrS :: r, b :: a :: stk, s =>
      run sys r (wrap64 (Int.fdiv a (2 ^ (toU64 b % 64).toNat)) :: stk) s
  | .i64eq :: r, b :: a :: stk, s => run sys r ((if a = b then 1 else 0) :: stk) s
  | .i64ne :: r, b :: a :: stk, s => run sys r ((if a = b then 0 else 1) :: stk) s
  | .i64ltS :: r, b :: a :: stk, s => run sys r ((if a < b then 1 else 0) :: stk) s
  | .i64ltU :: r, b :: a :: stk, s =>
      run sys r ((if toU64 a < toU64 b then 1 else 0) :: stk) s
  | .i64geS :: r, b :: a :: stk, s => run sys r ((if b ≤ a then 1 else 0) :: stk) s
  | .i64geU :: r, b :: a :: stk, s =>
      run sys r ((if toU64 b ≤ toU64 a then 1 else 0) :: stk) s
  | .i64eqz :: r, a :: stk, s => run sys r ((if a = 0 then 1 else 0) :: stk) s
  | .i64divS :: r, b :: a :: stk, s =>
      if b = 0 ∨ (a = -(2 ^ 63) ∧ b = -1) then none
      else run sys r (tquot a b :: stk) s
  | .i64divU :: r, b :: a :: stk, s =>
      if b = 0 then none else run sys r (wrap64 (toU64 a / toU64 b) :: stk) s
  | .i64remS :: r, b :: a :: stk, s =>
      if b = 0 then none else run sys r (wrap64 (trem a b) :: stk) s
  | .i64remU :: r, b :: a :: stk, s =>
      if b = 0 then none else run sys r (wrap64 (toU64 a % toU64 b) :: stk) s
  | .i64extendI32S :: r, a :: stk, s => run sys r (a :: stk) s
  | .i64extendI32U :: r, a :: stk, s => run sys r (toU32 a :: stk) s
  | .i32wrapI64 :: r, a :: stk, s => run sys r (wrap32 a :: stk) s
  | .i32add :: r, b :: a :: stk, s => run sys r (wrap32 (a + b) :: stk) s
  | .i32sub :: r, b :: a :: stk, s => run sys r (wrap32 (a - b) :: stk) s
  | .i32mul :: r, b :: a :: stk, s => run sys r (wrap32 (a * b) :: stk) s
  | .i32and :: r, b :: a :: stk, s => run sys r (wrap32 (Int.land a b) :: stk) s
  | .i32shl :: r, b :: a :: stk, s =>
      run sys r (wrap32 (a * 2 ^ (toU32 b % 32).toNat) :: stk) s
  | .i32shrU :: r, b :: a :: stk, s =>
      run sys r (wrap32 (toU32 a / 2 ^ (toU32 b % 32).toNat) :: stk) s
  | .i32shrS :: r, b :: a :: stk, s =>
      run sys r (wrap32 (Int.fdiv a (2 ^ (toU32 b % 32).toNat)) :: stk) s
  | .i32eqz :: r, a :: stk, s => run sys r ((if a = 0 then 1 else 0) :: stk) s
  | .i32divS :: r, b :: a :: stk, s =>
      if b = 0 ∨ (a = -(2 ^ 31) ∧ b = -1) then none
      else run sys r (tquot a b :: stk) s
  | .i32divU :: r, b :: a :: stk, s =>
      if b = 0 then none else run sys r (wrap32 (toU32 a / toU32 b) :: stk) s
  | .i32remS :: r, b :: a :: stk, s =>
      if b = 0 then none else run sys r (wrap32 (trem a b) :: stk) s
  | .i32remU :: r, b :: a :: stk, s =>
      if b = 0 then none else run sys r (wrap32 (toU32 a % toU32 b) :: stk) s
  | .i32load :: r, a :: stk, s =>
      run sys r (wrap32 (readLE s.mem (toU32 a).toNat 4) :: stk) s
  | .i32load8S :: r, a :: stk, s =>
      run sys r (sext8 (s.mem (toU32 a).toNat) :: stk) s
  | .i32load8U :: r, a :: stk, s =>
      run sys r ((s.mem (toU32 a).toNat % 256 : Nat) :: stk) s
  | .i32load16S :: r, a :: stk, s =>
      run sys r (sext16 (readLE s.mem (toU32 a).toNat 2) :: stk) s
  | .i32load16U :: r, a :: stk, s =>
      run sys r ((readLE s.mem (toU32 a).toNat 2 : Int) :: stk) s
  | .i64load :: r, a :: stk, s =>
      run sys r (wrap64 (readLE s.mem (toU32 a).toNat 8) :: stk) s
  | .i32store :: r, v :: a :: stk, s =>
      run sys r stk { s with mem := writeLE s.mem (toU32 a).toNat (toU32 v).toNat 4 }
  | .i32store8 :: r, v :: a :: stk, s =>
      run sys r stk { s with mem := writeLE s.mem (toU32 a).toNat (toU32 v).toNat 1 }
  | .i32store16 :: r, v :: a :: stk, s =>
      run sys r stk { s with mem := writeLE s.mem (toU32 a).toNat (toU32 v).toNat 2 }
  | .i64store :: r, v :: a :: stk, s =>
      run sys r stk { s with mem := writeLE s.mem (toU32 a).toNat (toU64 v).toNat 8 }
  | .callVaddrToOffset :: r, a :: stk, s => run sys r (wrap32 a :: stk) s
  | .callSyscall :: r, a6 :: a5 :: a4 :: a3 :: a2 :: a1 :: n :: stk, s =>
      match sys n [a1, a2, a3, a4, a5, a6] s.mem s.exitFlag with
      | (ret, m', e') => run sys r (wrap64 ret :: stk) { s with mem := m', exitFlag := e' }
  | .if_ t e :: r, c :: stk, s =>
      if c = 0 then
        match run sys e stk s with
        | some (stk', s') => run sys r stk' s'
        | none => none
      else
        match run sys t stk s with
        | some (stk', s') => run sys r stk' s'
        | none => none
  | _, _, _ => none
  termination_by l _ _ => sizeOf l
  decreasing_by all_goals simp_wf <;> omega

/-!
### Small-step equations for `run`

`run` is compiled by well-founded recursion; the lemmas below restate its
defining equations one operation at a time for use with `simp`. -/

set_option maxHeartbeats 2000000 in
@[simp] theorem run_nil (sys : Sys) (stk : List Int) (s : WState) :
    run sys [] stk s = some (stk, s) := by
  rw [run]

@[simp] theorem run_comment (sys : Sys) (c : String) (r : List Wat)
    (stk : List Int) (s : WState) :
    run sys (.comment c :: r) stk s = run sys r stk s := by
  rw [run]

@[simp] theorem run_i64const (sys : Sys) (n : Int) (r : List Wat)
    (stk : List Int) (s : WState) :
    run sys (.i64const n :: r) stk s = run sys r (wrap64 n :: stk) s := by
  rw [run]

@[simp] theorem run_i32const (sys : Sys) (n : Int) (r : List Wat)
    (stk : List Int) (s : WState) :
    run sys (.i32const n :: r) stk s = run sys r (wrap32 n :: stk) s := by
  rw [run]

@[simp] theorem run_globalGet (sys : Sys) (g : Glb) (r : List Wat)
    (stk : List Int) (s : WState) :
    run sys (.globalGet g :: r) stk s = run sys r (readG g s :: stk) s := by
  rw [run]

@[simp] theorem run_globalSet (sys : Sys) (g : Glb) (r : List Wat) (v : Int)
    (stk : List Int) (s : WState) :
    run sys (.globalSet g :: r) (v :: stk) s = run sys r stk (setG g v s) := by
  rw [run]

@[simp] theorem run_i64add (sys : Sys) (r : List Wat) (a b : Int)
    (stk : List Int) (s : WState) :
    run sys (.i64add :: r) (b :: a :: stk) s = run sys r (wrap64 (a + b) :: stk) s := by
  rw [run]

@[simp] theorem run_i64sub (sys : Sys) (r : List Wat) (a b : Int)
    (stk : List Int) (s : WState) :
    run sys (.i64sub :: r) (b :: a :: stk) s = run sys r (wrap64 (a - b) :: stk) s := by
  rw [run]

@[simp] theorem run_i64mul (sys : Sys) (r : List Wat) (a b : Int)
    (stk : List Int) (s : WState) :
    run sys (.i64mul :: r) (b :: a :: stk) s = run sys r (wrap64 (a * b) :: stk) s := by
  rw [run]

@[simp] theorem run_i64and (sys : Sys) (r : List Wat) (a b : Int)
    (stk : List Int) (s : WState) :
    run sys (.i64and :: r) (b :: a :: stk) s
      = run sys r (wrap64 (Int.land a b) :: stk) s := by
  rw [run]

@[simp] theorem run_i64or (sys : Sys) (r : List Wat) (a b : Int)
    (stk : List Int) (s : WState) :
    run sys (.i64or :: r) (b :: a :: stk) s
      = run sys r (wrap64 (Int.lor a b) :: stk) s := by
  rw [run]

@[simp] theorem run_i64xor (sys : Sys) (r : List Wat) (a b : Int)
    (stk : List Int) (s : WState) :
    run sys (.i64xor :: r) (b :: a :: stk) s
      = run sys r (wrap64 (Int.xor a b) :: stk) s := by
  rw [run]

@[simp] theorem run_i64shl (sys : Sys) (r : List Wat) (a b : Int)
    (stk : List Int) (s : WState) :
    run sys (.i64shl :: r) (b :: a :: stk) s
      = run sys r (wrap64 (a * 2 ^ (toU64 b % 64).toNat) :: stk) s := by
  rw [run]

@[simp] theorem run_i64shrU (sys : Sys) (r : List Wat) (a b : Int)
    (stk : List Int) (s : WState) :
    run sys (.i64shrU :: r) (b :: a :: stk) s
      = run sys r (wrap64 (toU64 a / 2 ^ (toU64 b % 64).toNat) :: stk) s := by
  rw [run]

@[simp] theorem run_i64shrS (sys : Sys) (r : List Wat) (a b : Int)
    (stk : List Int) (s : WState) :
    run sys (.i64shrS :: r) (b :: a :: stk) s
      = run sys r (wrap64 (Int.fdiv a (2 ^ (toU64 b % 64).toNat)) :: stk) s := by
  rw [run]

@[simp] theorem run_i64eq (sys : Sys) (r : List Wat) (a b : Int)
    (stk : List Int) (s : WState) :
    run sys (.i64eq :: r) (b :: a :: stk) s
      = run sys r ((if a = b then 1 else 0) :: stk) s := by
  rw [run]

@[simp] theorem run_i64ne (sys : Sys) (r : List Wat) (a b : Int)
    (stk : List Int) (s : WState) :
    run sys (.i64ne :: r) (b :: a :: stk) s
      = run sys r ((if a = b then 0 else 1) :: stk) s := by
  rw [run]

@[simp] theorem run_i64ltS (sys : Sys) (r : List Wat) (a b : Int)
    (stk : List Int) (s : WState) :
    run sys (.i64ltS :: r) (b :: a :: stk) s
      = run sys r ((if a < b then 1 else 0) :: stk) s := by
  rw [run]

@[simp] theorem run_i64ltU (sys : Sys) (r : List Wat) (a b : Int)
    (stk : List Int) (s : WState) :
    run sys (.i64ltU :: r) (b :: a :: stk) s
      = run sys r ((if toU64 a < toU64 b then 1 else 0) :: stk) s := by
  rw [run]

@[simp] theorem run_i64geS (sys : Sys) (r : List Wat) (a b : Int)
    (stk : List Int) (s : WState) :
    run sys (.i64geS :: r) (b :: a :: stk) s
      = run sys r ((if b ≤ a then 1 else 0) :: stk) s := by
  rw [run]

@[simp] theorem run_i64geU (sys : Sys) (r : List Wat) (a b : Int)
    (stk : List Int) (s : WState) :
    run sys (.i64geU :: r) (b :: a :: stk) s
      = run sys r ((if toU64 b ≤ toU64 a then 1 else 0) :: stk) s := by
  rw [run]

@[simp] theorem run_i64eqz (sys : Sys) (r : List Wat) (a : Int)
    (stk : List Int) (s : WState) :
    run sys (.i64eqz :: r) (a :: stk) s
      = run sys r ((if a = 0 then 1 else 0) :: stk) s := by
  rw [run]

@[simp] theorem run_i64divS (sys : Sys) (r : List Wat) (a b : Int)
    (stk : List Int) (s : WState) :
    run sys (.i64divS :: r) (b :: a :: stk) s
      = if b = 0 ∨ (a = -(2 ^ 63) ∧ b = -1) then none
        else run sys r (tquot a b :: stk) s := by
  rw [run]

@[simp] theorem run_i64divU (sys : Sys) (r : List Wat) (a b : Int)
    (stk : List Int) (s : WState) :
    run sys (.i64divU :: r) (b :: a :: stk) s
      = if b = 0 then none else run sys r (wrap64 (toU64 a / toU64 b) :: stk) s := by
  rw [run]

@[simp] theorem run_i64remS (sys : Sys) (r : List Wat) (a b : Int)
    (stk : List Int) (s : WState) :
    run sys (.i64remS :: r) (b :: a :: stk) s
      = if b = 0 then none else run sys r (wrap64 (trem a b) :: stk) s := by
  rw [run]

@[simp] theorem run_i64remU (sys : Sys) (r : List Wat) (a b : Int)
    (stk : List Int) (s : WState) :
    run sys (.i64remU :: r) (b :: a :: stk) s
      = if b = 0 then none else run sys r (wrap64 (toU64 a % toU64 b) :: stk) s := by
  rw [run]

@[simp] theorem run_i64extendI32S (sys : Sys) (r : List Wat) (a : Int)
    (stk : List Int) (s : WState) :
    run sys (.i64extendI32S :: r) (a :: stk) s = run sys r (a :: stk) s := by
  rw [run]

@[simp] theorem run_i64extendI32U (sys : Sys) (r : List Wat) (a : Int)
    (stk : List Int) (s : WState) :
    run sys (.i64extendI32U :: r) (a :: stk) s = run sys r (toU32 a :: stk) s := by
  rw [run]

@[simp] theorem run_i32wrapI64 (sys : Sys) (r : List Wat) (a : Int)
    (stk : List Int) (s : WState) :
    run sys (.i32wrapI64 :: r) (a :: stk) s = run sys r (wrap32 a :: stk) s := by
  rw [run]

@[simp] theorem run_i32add (sys : Sys) (r : List Wat) (a b : Int)
    (stk : List Int) (s : WState) :
    run sys (.i32add :: r) (b :: a :: stk) s = run sys r (wrap32 (a + b) :: stk) s := by
  rw [run]

@[simp] theorem run_i32sub (sys : Sys) (r : List Wat) (a b : Int)
    (stk : List Int) (s : WState) :
    run sys (.i32sub :: r) (b :: a :: stk) s = run sys r (wrap32 (a - b) :: stk) s := by
  rw [run]

@[simp] theorem run_i32mul (sys : Sys) (r : List Wat) (a b : Int)
    (stk : List Int) (s : WState) :
    run sys (.i32mul :: r) (b :: a :: stk) s = run sys r (wrap32 (a * b) :: stk) s := by
  rw [run]

@[simp] theorem run_i32and (sys : Sys) (r : List Wat) (a b : Int)
    (stk : List Int) (s : WState) :
    run sys (.i32and :: r) (b :: a :: stk) s
      = run sys r (wrap32 (Int.land a b) :: stk) s := by
  rw [run]

@[simp] theorem run_i32shl (sys : Sys) (r : List Wat) (a b : Int)
    (stk : List Int) (s : WState) :
    run sys (.i32shl :: r) (b :: a :: stk) s
      = run sys r (wrap32 (a * 2 ^ (toU32 b % 32).toNat) :: stk) s := by
  rw [run]

@[simp] theorem run_i32shrU (sys : Sys) (r : List Wat) (a b : Int)
    (stk : List Int) (s : WState) :
    run sys (.i32shrU :: r) (b :: a :: stk) s
      = run sys r (wrap32 (toU32 a / 2 ^ (toU32 b % 32).toNat) :: stk) s := by
  rw [run]

@[simp] theorem run_i32shrS (sys : Sys) (r : List Wat) (a b : Int)
    (stk : List Int) (s : WState) :
    run sys (.i32shrS :: r) (b :: a :: stk) s
      = run sys r (wrap32 (Int.fdiv a (2 ^ (toU32 b % 32).toNat)) :: stk) s := by
  rw [run]

@[simp] theorem run_i32eqz (sys : Sys) (r : List Wat) (a : Int)
    (stk : List Int) (s : WState) :
    run sys (.i32eqz :: r) (a :: stk) s
      = run sys r ((if a = 0 then 1 else 0) :: stk) s := by
  rw [run]

@[simp] theorem run_i32divS (sys : Sys) (r : List Wat) (a b : Int)
    (stk : List Int) (s : WState) :
    run sys (.i32divS :: r) (b :: a :: stk) s
      = if b = 0 ∨ (a = -(2 ^ 31) ∧ b = -1) then none
        else run sys r (tquot a b :: stk) s := by
  rw [run]

@[simp] theorem run_i32divU (sys : Sys) (r : List Wat) (a b : Int)
    (stk : List Int) (s : WState) :
    run sys (.i32divU :: r) (b :: a :: stk) s
      = if b = 0 then none else run sys r (wrap32 (toU32 a / toU32 b) :: stk) s := by
  rw [run]

@[simp] theorem run_i32remS (sys : Sys) (r : List Wat) (a b : Int)
    (stk : List Int) (s : WState) :
    run sys (.i32remS :: r) (b :: a :: stk) s
      = if b = 0 then none else run sys r (wrap32 (trem a b) :: stk) s := by
  rw [run]

@[simp] theorem run_i32remU (sys : Sys) (r : List Wat) (a b : Int)
    (stk : List Int) (s : WState) :
    run sys (.i32remU :: r) (b :: a :: stk) s
      = if b = 0 then none else run sys r (wrap32 (toU32 a % toU32 b) :: stk) s := by
  rw [run]

@[simp] theorem run_i32load (sys : Sys) (r : List Wat) (a : Int)
    (stk : List Int) (s : WState) :
    run sys (.i32load :: r) (a :: stk) s
      = run sys r (wrap32 (readLE s.mem (toU32 a).toNat 4) :: stk) s := by
  rw [run]

@[simp] theorem run_i32load8S (sys : Sys) (r : List Wat) (a : Int)
    (stk : List Int) (s : WState) :
    run sys (.i32load8S :: r) (a :: stk) s
      = run sys r (sext8 (s.mem (toU32 a).toNat) :: stk) s := by
  rw [run]

@[simp] theorem run_i32load8U (sys : Sys) (r : List Wat) (a : Int)
    (stk : List Int) (s : WState) :
    run sys (.i32load8U :: r) (a :: stk) s
      = run sys r ((s.mem (toU32 a).toNat % 256 : Nat) :: stk) s := by
  rw [run]

@[simp] theorem run_i32load16S (sys : Sys) (r : List Wat) (a : Int)
    (stk : List Int) (s : WState) :
    run sys (.i32load16S :: r) (a :: stk) s
      = run sys r (sext16 (readLE s.mem (toU32 a).toNat 2) :: stk) s := by
  rw [run]

@[simp] theorem run_i32load16U (sys : Sys) (r : List Wat) (a : Int)
    (stk : List Int) (s : WState) :
    run sys (.i32load16U :: r) (a :: stk) s
      = run sys r ((readLE s.mem (toU32 a).toNat 2 : Int) :: stk) s := by
  rw [run]

@[simp] theorem run_i64load (sys : Sys) (r : List Wat) (a : Int)
    (stk : List Int) (s : WState) :
    run sys (.i64load :: r) (a :: stk) s
      = run sys r (wrap64 (readLE s.mem (toU32 a).toNat 8) :: stk) s := by
  rw [run]

@[simp] theorem run_i32store (sys : Sys) (r : List Wat) (a v : Int)
    (stk : List Int) (s : WState) :
    run sys (.i32store :: r) (v :: a :: stk) s
      = run sys r stk { s with mem := writeLE s.mem (toU32 a).toNat (toU32 v).toNat 4 } := by
  rw [run]

@[simp] theorem run_i32store8 (sys : Sys) (r : List Wat) (a v : Int)
    (stk : List Int) (s : WState) :
    run sys (.i32store8 :: r) (v :: a :: stk) s
      = run sys r stk { s with mem := writeLE s.mem (toU32 a).toNat (toU32 v).toNat 1 } := by
  rw [run]

@[simp] theorem run_i32store16 (sys : Sys) (r : List Wat) (a v : Int)
    (stk : List Int) (s : WState) :
    run sys (.i32store16 :: r) (v :: a :: stk) s
      = run sys r stk { s with mem := writeLE s.mem (toU32 a).toNat (toU32 v).toNat 2 } := by
  rw [run]

@[simp] theorem run_i64store (sys : Sys) (r : List Wat) (a v : Int)
    (stk : List Int) (s : WState) :
    run sys (.i64store :: r) (v :: a :: stk) s
      = run sys r stk { s with mem := writeLE s.mem (toU32 a).toNat (toU64 v).toNat 8 } := by
  rw [run]

@[simp] theorem run_callVaddrToOffset (sys : Sys) (r : List Wat) (a : Int)
    (stk : List Int) (s : WState) :
    run sys (.callVaddrToOffset :: r) (a :: stk) s = run sys r (wrap32 a :: stk) s := by
  rw [run]

@[simp] theorem run_callSyscall (sys : Sys) (r : List Wat)
    (n a1 a2 a3 a4 a5 a6 : Int) (stk : List Int) (s : WState) :
    run sys (.callSyscall :: r) (a6 :: a5 :: a4 :: a3 :: a2 :: a1 :: n :: stk) s
      = run sys r (wrap64 (sys n [a1, a2, a3, a4, a5, a6] s.mem s.exitFlag).1 :: stk)
          { s with mem := (sys n [a1, a2, a3, a4, a5, a6] s.mem s.exitFlag).2.1,
                   exitFlag := (sys n [a1, a2, a3, a4, a5, a6] s.mem s.exitFlag).2.2 } := by
  rw [run]

@[simp] theorem run_if (sys : Sys) (t e r : List Wat) (c : Int)
    (stk : List Int) (s : WState) :
    run sys (.if_ t e :: r) (c :: stk) s
      = if c = 0 then (run sys e stk s).bind fun p => run sys r p.1 p.2
        else (run sys t stk s).bind fun p => run sys r p.1 p.2 := by
  rw [run]
  by_cases hc : c = 0 <;> simp only [hc, if_true, if_false, reduceIte]
  · cases run sys e stk s with
    | none => rfl
    | some p => cases p; rfl
  · cases run sys t stk s with
    | none => rfl
    | some p => cases p; rfl

/-!
## Decoded instructions

The decoder lives in `src/frontend/instruction.rs`, which is not among the
provided sources; only its callers are.  The variant shapes below are the
ones the emitter (src/middleend/emit_wasm.rs) matches on, with operand
payloads modelled from the spec: register operands are plain indices
(`Reg::X(xx)` → `xx.value()`), and each immediate payload is the already
decoded integer that the emitter interpolates into the WAT text
(`imm.decode() as i32`, `imm.0 as i32`, `imm.decode_sext()`, `shamt.0`
respectively, per use site).  Modelled from the spec: "Each variant carries
structured operands: destination register index (0..31), up to two source
register indices, and a typed immediate"; "invalid bit patterns map to
`Unknown`". -/

/-- RV32I base instructions as matched by `WasmEmitter::emit_rv32i`. -/
inductive RV32I where
  | LUI (rd : Nat) (imm : Int)
  | AUIPC (rd : Nat) (imm : Int)
  | JAL (rd : Nat) (imm : Int)
  | JALR (rd rs1 : Nat) (imm : Int)
  | BEQ (rs1 rs2 : Nat) (imm : Int)
  | BNE (rs1 rs2 : Nat) (imm : Int)
  | BLT (rs1 rs2 : Nat) (imm : Int)
  | BGE (rs1 rs2 : Nat) (imm : Int)
  | BLTU (rs1 rs2 : Nat) (imm : Int)
  | BGEU (rs1 rs2 : Nat) (imm : Int)
  | LB (rd rs1 : Nat) (imm : Int)
  | LH (rd rs1 : Nat) (imm : Int)
  | LW (rd rs1 : Nat) (imm : Int)
  | LBU (rd rs1 : Nat) (imm : Int)
  | LHU (rd rs1 : Nat) (imm : Int)
  | SB (rs1 rs2 : Nat) (imm : Int)
  | SH (rs1 rs2 : Nat) (imm : Int)
  | SW (rs1 rs2 : Nat) (imm : Int)
  | ADDI (rd rs1 : Nat) (imm : Int)
  | SLTI (rd rs1 : Nat) (imm : Int)
  | SLTIU (rd rs1 : Nat) (imm : Int)
  | XORI (rd rs1 : Nat) (imm : Int)
  | ORI (rd rs1 : Nat) (imm : Int)
  | ANDI (rd rs1 : Nat) (imm : Int)
  | SLLI (rd rs1 : Nat) (shamt : Nat)
  | SRLI (rd rs1 : Nat) (shamt : Nat)
  | SRAI (rd rs1 : Nat) (shamt : Nat)
  | ADD (rd rs1 rs2 : Nat)
  | SUB (rd rs1 rs2 : Nat)
  | SLL (rd rs1 rs2 : Nat)
  | SLT (rd rs1 rs2 : Nat)
  | SLTU (rd rs1 rs2 : Nat)
  | XOR (rd rs1 rs2 : Nat)
  | SRL (rd rs1 rs2 : Nat)
  | SRA (rd rs1 rs2 : Nat)
  | OR (rd rs1 rs2 : Nat)
  | AND (rd rs1 rs2 : Nat)
  | FENCE
  | FENCE_TSO
  | PAUSE
  | ECALL
  | EBREAK
  deriving Repr

/-- RV64I instructions as matched by `WasmEmitter::emit_rv64i`. -/
inductive RV64I where
  | LWU (rd rs1 : Nat) (imm : Int)
  | LD (rd rs1 : Nat) (imm : Int)
  | SD (rs1 rs2 : Nat) (imm : Int)
  | SLLI (rd rs1 : Nat) (shamt : Nat)
  | SRLI (rd rs1 : Nat) (shamt : Nat)
  | SRAI (rd rs1 : Nat) (shamt : Nat)
  | ADDIW (rd rs1 : Nat) (imm : Int)
  | SLLIW (rd rs1 : Nat) (shamt : Nat)
  | SRLIW (rd rs1 : Nat) (shamt : Nat)
  | SRAIW (rd rs1 : Nat) (shamt : Nat)
  | ADDW (rd rs1 rs2 : Nat)
  | SUBW (rd rs1 rs2 : Nat)
  | SLLW (rd rs1 rs2 : Nat)
  | SRLW (rd rs1 rs2 : Nat)
  | SRAW (rd rs1 rs2 : Nat)
  deriving Repr

/-- RV32M multiply/divide instructions (`WasmEmitter::emit_rv32m`). -/
inductive RV32M where
  | MUL (rd rs1 rs2 : Nat)
  | MULH (rd rs1 rs2 : Nat)
  | MULHSU (rd rs1 rs2 : Nat)
  | MULHU (rd rs1 rs2 : Nat)
  | DIV (rd rs1 rs2 : Nat)
  | DIVU (rd rs1 rs2 : Nat)
  | REM (rd rs1 rs2 : Nat)
  | REMU (rd rs1 rs2 : Nat)
  deriving Repr

/-- RV64M multiply/divide instructions (`WasmEmitter::emit_rv64m`). -/
inductive RV64M where
  | MULW (rd rs1 rs2 : Nat)
  | DIVW (rd rs1 rs2 : Nat)
  | DIVUW (rd rs1 rs2 : Nat)
  | REMW (rd rs1 rs2 : Nat)
  | REMUW (rd rs1 rs2 : Nat)
  deriving Repr

/-- Vector instructions with a lowering in `WasmEmitter::emit_rvv`; `vother`
covers the families handled by its catch-all diagnostic-comment arm. -/
inductive RVV where
  | VSETVLI (rd rs1 : Nat)
  | VSETIVLI (rd : Nat)
  | VSETVL (rd rs1 rs2 : Nat)
  | vother
  deriving Repr

/-- The `RV32Instr` families matched by `emit_instruction`; `other` covers
the families handled by its `_ => TODO` arm. -/
inductive RV32Instr where
  | rv32i : RV32I → RV32Instr
  | rv32m : RV32M → RV32Instr
  | rvv : RVV → RV32Instr
  | other
  deriving Repr

/-- The `RV64Instr` families matched by `emit_instruction`. -/
inductive RV64Instr where
  | rv64i : RV64I → RV64Instr
  | rv64m : RV64M → RV64Instr
  | rv64v : RVV → RV64Instr
  | other
  deriving Repr

/-- The top-level `Instr` sum.  `unknown` plays the role of the variants
reached by the final `_ => TODO` arm; modelled from the spec:
`Unknown(raw bytes)`. -/
inductive Instr where
  | rv32 : RV32Instr → Instr
  | rv64 : RV64Instr → Instr
  | nop
  | unknown (raw : Nat)
  deriving Repr

/-!
## The emitter

Each function below returns, as a `List Wat`, exactly the WAT lines that the
corresponding `writeln!` calls of `WasmEmitter` append, in order.  Comment
lines (`;; …`) are carried as `Wat.comment` with an abbreviated text; they
have no semantics. -/

/-- Lines emitted for one `RV32I` instruction (`WasmEmitter::emit_rv32i`,
src/middleend/emit_wasm.rs lines 150-654).  `LUI`/`AUIPC` interpolate
`(imm_val << 12) as i64` where `imm_val : i32`, i.e. `wrap32 (imm * 4096)`. -/
def emit_rv32i : RV32I → List Wat
  | .LUI rd imm => [.i64const (wrap32 (imm * 4096)), .globalSet (.x rd)]
  | .AUIPC rd imm =>
      [.globalGet .pc, .i64const (wrap32 (imm * 4096)), .i64add, .globalSet (.x rd)]
  | .JAL rd imm =>
      if rd = 0 then
        [.comment "Jump (no return address saved to x0)",
         .globalGet .pc, .i64const imm, .i64add, .globalSet .pc]
      else
        [.comment "Save return address",
         .globalGet .pc, .i64const 4, .i64add, .globalSet (.x rd),
         .comment "Jump",
         .globalGet .pc, .i64const imm, .i64add, .globalSet .pc]
  | .JALR rd rs1 imm =>
      if rd = 0 then
        [.comment "Compute target (no return address saved to x0)",
         .globalGet (.x rs1), .i64const imm, .i64add,
         .i64const (-2), .i64and, .globalSet .pc]
      else
        [.comment "Save return address",
         .globalGet .pc, .i64const 4, .i64add, .globalSet (.x rd),
         .comment "Compute target",
         .globalGet (.x rs1), .i64const imm, .i64add,
         .i64const (-2), .i64and, .globalSet .pc]
  | .BEQ rs1 rs2 imm =>
      [.globalGet (.x rs1), .globalGet (.x rs2), .i64eq,
       .if_ [.globalGet .pc, .i64const imm, .i64add, .globalSet .pc]
            [.globalGet .pc, .i64const 4, .i64add, .globalSet .pc]]
  | .BNE rs1 rs2 imm =>
      [.globalGet (.x rs1), .globalGet (.x rs2), .i64ne,
       .if_ [.globalGet .pc, .i64const imm, .i64add, .globalSet .pc]
            [.globalGet .pc, .i64const 4, .i64add, .globalSet .pc]]
  | .BLT rs1 rs2 imm =>
      [.globalGet (.x rs1), .globalGet (.x rs2), .i64ltS,
       .if_ [.globalGet .pc, .i64const imm, .i64add, .globalSet .pc]
            [.globalGet .pc, .i64const 4, .i64add, .globalSet .pc]]
  | .BGE rs1 rs2 imm =>
      [.globalGet (.x rs1), .globalGet (.x rs2), .i64geS,
       .if_ [.globalGet .pc, .i64const imm, .i64add, .globalSet .pc]
            [.globalGet .pc, .i64const 4, .i64add, .globalSet .pc]]
  | .BLTU rs1 rs2 imm =>
      [.globalGet (.x rs1), .globalGet (.x rs2), .i64ltU,
       .if_ [.globalGet .pc, .i64const imm, .i64add, .globalSet .pc]
            [.globalGet .pc, .i64const 4, .i64add, .globalSet .pc]]
  | .BGEU rs1 rs2 imm =>
      [.globalGet (.x rs1), .globalGet (.x rs2), .i64geU,
       .if_ [.globalGet .pc, .i64const imm, .i64add, .globalSet .pc]
            [.globalGet .pc, .i64const 4, .i64add, .globalSet .pc]]
  | .LB rd rs1 imm =>
      [.globalGet (.x rs1), .i64const imm, .i64add, .callVaddrToOffset,
       .i32load8S, .i64extendI32S, .globalSet (.x rd)]
  | .LH rd rs1 imm =>
      [.globalGet (.x rs1), .i64const imm, .i64add, .callVaddrToOffset,
       .i32load16S, .i64extendI32S, .globalSet (.x rd)]
  | .LW rd rs1 imm =>
      [.globalGet (.x rs1), .i64const imm, .i64add, .callVaddrToOffset,
       .i32load, .i64extendI32S, .globalSet (.x rd)]
  | .LBU rd rs1 imm =>
      [.globalGet (.x rs1), .i64const imm, .i64add, .callVaddrToOffset,
       .i32load8U, .i64extendI32U, .globalSet (.x rd)]
  | .LHU rd rs1 imm =>
      [.globalGet (.x rs1), .i64const imm, .i64add, .callVaddrToOffset,
       .i32load16U, .i64extendI32U, .globalSet (.x rd)]
  | .SB rs1 rs2 imm =>
      [.globalGet (.x rs1), .i64const imm, .i64add, .callVaddrToOffset,
       .globalGet (.x rs2), .i32wrapI64, .i32store8]
  | .SH rs1 rs2 imm =>
      [.globalGet (.x rs1), .i64const imm, .i64add, .callVaddrToOffset,
       .globalGet (.x rs2), .i32wrapI64, .i32store16]
  | .SW rs1 rs2 imm =>
      [.globalGet (.x rs1), .i64const imm, .i64add, .callVaddrToOffset,
       .globalGet (.x rs2), .i32wrapI64, .i32store]
  | .ADDI rd rs1 imm =>
      [.globalGet (.x rs1), .i64const imm, .i64add, .globalSet (.x rd)]
  | .SLTI rd rs1 imm =>
      [.globalGet (.x rs1), .i64const imm, .i64ltS, .i64extendI32U, .globalSet (.x rd)]
  | .SLTIU rd rs1 imm =>
      [.globalGet (.x rs1), .i64const imm, .i64ltU, .i64extendI32U, .globalSet (.x rd)]
  | .XORI rd rs1 imm =>
      [.globalGet (.x rs1), .i64const imm, .i64xor, .globalSet (.x rd)]
  | .ORI rd rs1 imm =>
      [.globalGet (.x rs1), .i64const imm, .i64or, .globalSet (.x rd)]
  | .ANDI rd rs1 imm =>
      [.globalGet (.x rs1), .i64const imm, .i64and, .globalSet (.x rd)]
  | .SLLI rd rs1 shamt =>
      [.globalGet (.x rs1), .i64const shamt, .i64shl, .globalSet (.x rd)]
  | .SRLI rd rs1 shamt =>
      [.globalGet (.x rs1), .i64const shamt, .i64shrU, .globalSet (.x rd)]
  | .SRAI rd rs1 shamt =>
      [.globalGet (.x rs1), .i64const shamt, .i64shrS, .globalSet (.x rd)]
  | .ADD rd rs1 rs2 =>
      [.globalGet (.x rs1), .globalGet (.x rs2), .i64add, .globalSet (.x rd)]
  | .SUB rd rs1 rs2 =>
      [.globalGet (.x rs1), .globalGet (.x rs2), .i64sub, .globalSet (.x rd)]
  | .SLL rd rs1 rs2 =>
      [.globalGet (.x rs1), .globalGet (.x rs2), .i64const 31, .i64and,
       .i64shl, .globalSet (.x rd)]
  | .SLT rd rs1 rs2 =>
      [.globalGet (.x rs1), .globalGet (.x rs2), .i64ltS, .i64extendI32U,
       .globalSet (.x rd)]
  | .SLTU rd rs1 rs2 =>
      [.globalGet (.x rs1), .globalGet (.x rs2), .i64ltU, .i64extendI32U,
       .globalSet (.x rd)]
  | .XOR rd rs1 rs2 =>
      [.globalGet (.x rs1), .globalGet (.x rs2), .i64xor, .globalSet (.x rd)]
  | .SRL rd rs1 rs2 =>
      [.globalGet (.x rs1), .globalGet (.x rs2), .i64const 31, .i64and,
       .i64shrU, .globalSet (.x rd)]
  | .SRA rd rs1 rs2 =>
      [.globalGet (.x rs1), .globalGet (.x rs2), .i64const 31, .i64and,
       .i64shrS, .globalSet (.x rd)]
  | .OR rd rs1 rs2 =>
      [.globalGet (.x rs1), .globalGet (.x rs2), .i64or, .globalSet (.x rd)]
  | .AND rd rs1 rs2 =>
      [.globalGet (.x rs1), .globalGet (.x rs2), .i64and, .globalSet (.x rd)]
  | .FENCE => [.comment "FENCE (no-op in WASM)"]
  | .FENCE_TSO => [.comment "FENCE.TSO (no-op in WASM)"]
  | .PAUSE => [.comment "PAUSE (no-op in WASM)"]
  | .ECALL =>
      [.comment "ECALL - RISC-V syscall",
       .globalGet (.x 17), .globalGet (.x 10), .globalGet (.x 11),
       .globalGet (.x 12), .globalGet (.x 13), .globalGet (.x 14),
       .globalGet (.x 15), .callSyscall, .globalSet (.x 10)]
  | .EBREAK => [.comment "EBREAK (debug trap)"]

/-- Lines emitted for one `RV64I` instruction (`WasmEmitter::emit_rv64i`,
src/middleend/emit_wasm.rs lines 657-837). -/
def emit_rv64i : RV64I → List Wat
  | .LWU rd rs1 imm =>
      [.globalGet (.x rs1), .i64const imm, .i64add, .callVaddrToOffset,
       .i32load, .i64extendI32U, .globalSet (.x rd)]
  | .LD rd rs1 imm =>
      [.globalGet (.x rs1), .i64const imm, .i64add, .callVaddrToOffset,
       .i64load, .globalSet (.x rd)]
  | .SD rs1 rs2 imm =>
      [.globalGet (.x rs1), .i64const imm, .i64add, .callVaddrToOffset,
       .globalGet (.x rs2), .i64store]
  | .SLLI rd rs1 shamt =>
      [.globalGet (.x rs1), .i64const shamt, .i64shl, .globalSet (.x rd)]
  | .SRLI rd rs1 shamt =>
      [.globalGet (.x rs1), .i64const shamt, .i64shrU, .globalSet (.x rd)]
  | .SRAI rd rs1 shamt =>
      [.globalGet (.x rs1), .i64const shamt, .i64shrS, .globalSet (.x rd)]
  | .ADDIW rd rs1 imm =>
      [.globalGet (.x rs1), .i32wrapI64, .i32const imm, .i32add,
       .i64extendI32S, .globalSet (.x rd)]
  | .SLLIW rd rs1 shamt =>
      [.globalGet (.x rs1), .i32wrapI64, .i32const shamt, .i32shl,
       .i64extendI32S, .globalSet (.x rd)]
  | .SRLIW rd rs1 shamt =>
      [.globalGet (.x rs1), .i32wrapI64, .i32const shamt, .i32shrU,
       .i64extendI32S, .globalSet (.x rd)]
  | .SRAIW rd rs1 shamt =>
      [.globalGet (.x rs1), .i32wrapI64, .i32const shamt, .i32shrS,
       .i64extendI32S, .globalSet (.x rd)]
  | .ADDW rd rs1 rs2 =>
      [.globalGet (.x rs1), .i32wrapI64, .globalGet (.x rs2), .i32wrapI64,
       .i32add, .i64extendI32S, .globalSet (.x rd)]
  | .SUBW rd rs1 rs2 =>
      [.globalGet (.x rs1), .i32wrapI64, .globalGet (.x rs2), .i32wrapI64,
       .i32sub, .i64extendI32S, .globalSet (.x rd)]
  | .SLLW rd rs1 rs2 =>
      [.globalGet (.x rs1), .i32wrapI64, .globalGet (.x rs2), .i32wrapI64,
       .i32const 31, .i32and, .i32shl, .i64extendI32S, .globalSet (.x rd)]
  | .SRLW rd rs1 rs2 =>
      [.globalGet (.x rs1), .i32wrapI64, .globalGet (.x rs2), .i32wrapI64,
       .i32const 31, .i32and, .i32shrU, .i64extendI32S, .globalSet (.x rd)]
  | .SRAW rd rs1 rs2 =>
      [.globalGet (.x rs1), .i32wrapI64, .globalGet (.x rs2), .i32wrapI64,
       .i32const 31, .i32and, .i32shrS, .i64extendI32S, .globalSet (.x rd)]

/-- Lines emitted for one `RV32M` instruction (`WasmEmitter::emit_rv32m`,
src/middleend/emit_wasm.rs lines 840-938). -/
def emit_rv32m : RV32M → List Wat
  | .MUL rd rs1 rs2 =>
      [.globalGet (.x rs1), .globalGet (.x rs2), .i64mul, .globalSet (.x rd)]
  | .MULH rd rs1 rs2 =>
      [.comment "MULH - high part of signed multiplication",
       .comment "TODO: implement 128-bit multiplication",
       .globalGet (.x rs1), .globalGet (.x rs2), .i64mul,
       .i64const 32, .i64shrS, .globalSet (.x rd)]
  | .MULHSU rd _ _ =>
      [.comment "MULHSU - TODO", .i64const 0, .globalSet (.x rd)]
  | .MULHU rd _ _ =>
      [.comment "MULHU - TODO", .i64const 0, .globalSet (.x rd)]
  | .DIV rd rs1 rs2 =>
      [.comment "DIV - signed division with zero check",
       .globalGet (.x rs2), .i64eqz,
       .if_ [.i64const (-1), .globalSet (.x rd)]
            [.globalGet (.x rs1), .globalGet (.x rs2), .i64divS, .globalSet (.x rd)]]
  | .DIVU rd rs1 rs2 =>
      [.comment "DIVU - unsigned division with zero check",
       .globalGet (.x rs2), .i64eqz,
       .if_ [.i64const (-1), .globalSet (.x rd)]
            [.globalGet (.x rs1), .globalGet (.x rs2), .i64divU, .globalSet (.x rd)]]
  | .REM rd rs1 rs2 =>
      [.comment "REM - signed remainder with zero check",
       .globalGet (.x rs2), .i64eqz,
       .if_ [.globalGet (.x rs1), .globalSet (.x rd)]
            [.globalGet (.x rs1), .globalGet (.x rs2), .i64remS, .globalSet (.x rd)]]
  | .REMU rd rs1 rs2 =>
      [.comment "REMU - unsigned remainder with zero check",
       .globalGet (.x rs2), .i64eqz,
       .if_ [.globalGet (.x rs1), .globalSet (.x rd)]
            [.globalGet (.x rs1), .globalGet (.x rs2), .i64remU, .globalSet (.x rd)]]

/-- Lines emitted for one `RV64M` instruction (`WasmEmitter::emit_rv64m`,
src/middleend/emit_wasm.rs lines 941-1007). -/
def emit_rv64m : RV64M → List Wat
  | .MULW rd rs1 rs2 =>
      [.globalGet (.x rs1), .i32wrapI64, .globalGet (.x rs2), .i32wrapI64,
       .i32mul, .i64extendI32S, .globalSet (.x rd)]
  | .DIVW rd rs1 rs2 =>
      [.comment "DIVW - 32-bit signed division with zero check",
       .globalGet (.x rs2), .i32wrapI64, .i32eqz,
       .if_ [.i64const (-1), .globalSet (.x rd)]
            [.globalGet (.x rs1), .i32wrapI64, .globalGet (.x rs2), .i32wrapI64,
             .i32divS, .i64extendI32S, .globalSet (.x rd)]]
  | .DIVUW rd rs1 rs2 =>
      [.comment "DIVUW - 32-bit unsigned division with zero check",
       .globalGet (.x rs2), .i32wrapI64, .i32eqz,
       .if_ [.i64const (-1), .globalSet (.x rd)]
            [.globalGet (.x rs1), .i32wrapI64, .globalGet (.x rs2), .i32wrapI64,
             .i32divU, .i64extendI32S, .globalSet (.x rd)]]
  | .REMW rd rs1 rs2 =>
      [.comment "REMW - 32-bit signed remainder with zero check",
       .globalGet (.x rs2), .i32wrapI64, .i32eqz,
       .if_ [.globalGet (.x rs1), .globalSet (.x rd)]
            [.globalGet (.x rs1), .i32wrapI64, .globalGet (.x rs2), .i32wrapI64,
             .i32remS, .i64extendI32S, .globalSet (.x rd)]]
  | .REMUW rd rs1 rs2 =>
      [.comment "REMUW - 32-bit unsigned remainder with zero check",
       .globalGet (.x rs2), .i32wrapI64, .i32eqz,
       .if_ [.globalGet (.x rs1), .globalSet (.x rd)]
            [.globalGet (.x rs1), .i32wrapI64, .globalGet (.x rs2), .i32wrapI64,
             .i32remU, .i64extendI32S, .globalSet (.x rd)]]

/-- Lines emitted for one vector instruction (`WasmEmitter::emit_rvv`,
src/middleend/emit_wasm.rs lines 1010-1059). -/
def emit_rvv : RVV → List Wat
  | .VSETVLI rd rs1 =>
      [.comment "VSETVLI - configure vector length",
       .globalGet (.x rs1), .globalSet .vl, .globalGet .vl, .globalSet (.x rd)]
  | .VSETIVLI rd =>
      [.comment "VSETIVLI - configure vector length (immediate)",
       .comment "TODO: parse immediate", .i64const 0, .globalSet (.x rd)]
  | .VSETVL rd rs1 rs2 =>
      [.comment "VSETVL - configure vector length",
       .globalGet (.x rs1), .globalSet .vl, .globalGet (.x rs2), .globalSet .vtype,
       .globalGet .vl, .globalSet (.x rd)]
  | .vother => [.comment "Vector instruction - TODO"]

/-- Body lines for the dispatched instruction: the `match &instr.instr`
of `emit_instruction` (src/middleend/emit_wasm.rs lines 104-130). -/
def instrBody : Instr → List Wat
  | .rv32 (.rv32i i) => emit_rv32i i
  | .rv32 (.rv32m m) => emit_rv32m m
  | .rv32 (.rvv v) => emit_rvv v
  | .rv32 .other => [.comment "TODO: RV32 instruction"]
  | .rv64 (.rv64i i) => emit_rv64i i
  | .rv64 (.rv64m m) => emit_rv64m m
  | .rv64 (.rv64v v) => emit_rvv v
  | .rv64 .other => [.comment "TODO: RV64 instruction"]
  | .nop => [.comment "NOP"]
  | .unknown _ => [.comment "TODO: instruction"]

/-- The `modifies_pc` check of `emit_instruction` (src/middleend/emit_wasm.rs
lines 88-102): only the RV32I jumps and branches count. -/
def modifies_pc : Instr → Bool
  | .rv32 (.rv32i (.JAL _ _)) => true
  | .rv32 (.rv32i (.JALR _ _ _)) => true
  | .rv32 (.rv32i (.BEQ _ _ _)) => true
  | .rv32 (.rv32i (.BNE _ _ _)) => true
  | .rv32 (.rv32i (.BLT _ _ _)) => true
  | .rv32 (.rv32i (.BGE _ _ _)) => true
  | .rv32 (.rv32i (.BLTU _ _ _)) => true
  | .rv32 (.rv32i (.BGEU _ _ _)) => true
  | _ => false

/-- The full WAT fragment appended by `WasmEmitter::emit_instruction`
(src/middleend/emit_wasm.rs lines 77-147) for dispatch address `pc`: a guard
comparing `$pc` against `pc`, and inside the guard the `$instr_count`
increment, the instruction body, and — unless `modifies_pc` — the
`$pc ← $pc + 4` advance. -/
def emit_instruction (pc : Int) (i : Instr) : List Wat :=
  [.comment "PC dispatch guard", .globalGet .pc, .i64const pc, .i64eq,
   .if_ ([.globalGet .instrCount, .i64const 1, .i64add, .globalSet .instrCount]
          ++ instrBody i
          ++ (if modifies_pc i then []
              else [.globalGet .pc, .i64const 4, .i64add, .globalSet .pc]))
        []]

/-!
## C1: the dispatch guard contract of `emit_instruction`
-/

theorem wrap64_add_right (a b : Int) : wrap64 (a + wrap64 b) = wrap64 (a + b) := by
  unfold wrap64
  have h2 : (0:Int) < 2 ^ 64 := by positivity
  omega

theorem wrap64_congr_add (a b c : Int) (h : wrap64 a = wrap64 b) :
    wrap64 (a + c) = wrap64 (b + c) := by
  unfold wrap64 at h ⊢
  have h2 : (0:Int) < 2 ^ 64 := by positivity
  omega

theorem ite_bind {α β : Type} (c : Prop) [Decidable c] (a b : Option α)
    (f : α → Option β) :
    (if c then a else b).bind f = if c then a.bind f else b.bind f := by
  split <;> rfl

/-- `setsPcAll l = true` iff every execution path through the WAT lines `l`
performs a `global.set $pc`: either some line of the sequence is
`global.set $pc`, or some `if` block writes it in both its branches. -/
def setsPcAll : List Wat → Bool
  | [] => false
  | .globalSet g :: r => g == .pc || setsPcAll r
  | .if_ t e :: r => (setsPcAll t && setsPcAll e) || setsPcAll r
  | _ :: r => setsPcAll r

set_option maxHeartbeats 1000000 in
@[simp] theorem setsPcAll_nil : setsPcAll [] = false := by rw [setsPcAll]

@[simp] theorem setsPcAll_globalSet (g : Glb) (r : List Wat) :
    setsPcAll (.globalSet g :: r) = (g == .pc || setsPcAll r) := by rw [setsPcAll]

@[simp] theorem setsPcAll_if (t e r : List Wat) :
    setsPcAll (.if_ t e :: r) = ((setsPcAll t && setsPcAll e) || setsPcAll r) := by
  rw [setsPcAll]

@[simp] theorem setsPcAll_comment (c : String) (r : List Wat) :
    setsPcAll (.comment c :: r) = setsPcAll r := by
  rw [setsPcAll] <;> simp

@[simp] theorem setsPcAll_globalGet (g : Glb) (r : List Wat) :
    setsPcAll (.globalGet g :: r) = setsPcAll r := by
  rw [setsPcAll] <;> simp

@[simp] theorem setsPcAll_i64const (n : Int) (r : List Wat) :
    setsPcAll (.i64const n :: r) = setsPcAll r := by
  rw [setsPcAll] <;> simp

@[simp] theorem setsPcAll_i64add (r : List Wat) :
    setsPcAll (.i64add :: r) = setsPcAll r := by
  rw [setsPcAll] <;> simp

@[simp] theorem setsPcAll_i64and (r : List Wat) :
    setsPcAll (.i64and :: r) = setsPcAll r := by
  rw [setsPcAll] <;> simp

@[simp] theorem setsPcAll_i64eq (r : List Wat) :
    setsPcAll (.i64eq :: r) = setsPcAll r := by
  rw [setsPcAll] <;> simp

@[simp] theorem setsPcAll_i64ne (r : List Wat) :
    setsPcAll (.i64ne :: r) = setsPcAll r := by
  rw [setsPcAll] <;> simp

@[simp] theorem setsPcAll_i64ltS (r : List Wat) :
    setsPcAll (.i64ltS :: r) = setsPcAll r := by
  rw [setsPcAll] <;> simp

@[simp] theorem setsPcAll_i64ltU (r : List Wat) :
    setsPcAll (.i64ltU :: r) = setsPcAll r := by
  rw [setsPcAll] <;> simp

@[simp] theorem setsPcAll_i64geS (r : List Wat) :
    setsPcAll (.i64geS :: r) = setsPcAll r := by
  rw [setsPcAll] <;> simp

@[simp] theorem setsPcAll_i64geU (r : List Wat) :
    setsPcAll (.i64geU :: r) = setsPcAll r := by
  rw [setsPcAll] <;> simp

/-- Retirement post-condition for one dispatched fragment: every non-trapping
execution leaves `$instr_count` incremented by exactly one, and — for
instructions that do not themselves write `$pc` — leaves `$pc = pc + 4`. -/
def postOK (pcv : Int) (i : Instr) (s : WState)
    (out : Option (List Int × WState)) : Prop :=
  ∀ p ∈ out, (p.2).instrCount = wrap64 (s.instrCount + 1)
    ∧ (modifies_pc i = false → (p.2).pc = wrap64 (pcv + 4))

/-- C1.  For every decoded instruction and dispatch address `pc`, the WAT
fragment appended by `WasmEmitter::emit_instruction` executes its body only
when the global `$pc` equals `pc` (otherwise the machine state is untouched);
when the guard matches, every non-trapping execution increments
`$instr_count` by exactly 1 and sets `$pc` to `pc + 4` unless the instruction
is a branch, `JAL` or `JALR` (`modifies_pc`), each of which contains an
explicit `global.set $pc` on both the taken and the untaken path. -/
theorem emit_instruction_dispatch_contract (sys : Sys) (pcv : Int) (i : Instr)
    (s : WState) :
    (wrap64 s.pc ≠ wrap64 pcv →
        run sys (emit_instruction pcv i) [] s = some ([], s))
    ∧ (wrap64 s.pc = wrap64 pcv →
        postOK pcv i s (run sys (emit_instruction pcv i) [] s))
    ∧ (modifies_pc i = true → setsPcAll (instrBody i) = true) := by
  refine ⟨fun hne => ?_, fun hpc => ?_, fun hctl => ?_⟩
  · simp [emit_instruction, readG, hne, wrap64_idem]
  · have hadv : wrap64 (s.pc + 4) = wrap64 (pcv + 4) := wrap64_congr_add _ _ _ hpc
    cases i with
    | rv32 c =>
      cases c with
      | rv32i ii =>
        cases ii
        all_goals
          simp [emit_instruction, instrBody, emit_rv32i, modifies_pc, postOK,
                ite_bind, readG, setG, hpc, hadv, wrap64_idem, wrap64_add_right,
                wrap64_add_left]
        all_goals try (split <;>
          simp [postOK, ite_bind, readG, setG, hpc, hadv, wrap64_idem,
                wrap64_add_right, wrap64_add_left, modifies_pc])

      | rv32m mm =>
        cases mm
        all_goals
          simp [emit_instruction, instrBody, emit_rv32m, modifies_pc, postOK,
                ite_bind, readG, setG, hpc, hadv, wrap64_idem, wrap64_add_right,
                wrap64_add_left]
        all_goals
          intro stk' s' hout
          repeat' split at hout
          all_goals
            try simp only [Option.some.injEq, Prod.mk.injEq, reduceCtorEq,
              false_and, and_false] at hout
          all_goals
            first
              | exact hout.elim
              | (obtain ⟨-, h2⟩ := hout; subst h2; simp [hadv])
      | rvv vv =>
        cases vv <;>
          simp [emit_instruction, instrBody, emit_rvv, modifies_pc, postOK,
                ite_bind, readG, setG, hpc, hadv, wrap64_idem, wrap64_add_right,
                wrap64_add_left]
      | other =>
        simp [emit_instruction, instrBody, modifies_pc, postOK, readG, setG,
              hpc, hadv, wrap64_idem, wrap64_add_right, wrap64_add_left]
    | rv64 c =>
      cases c with
      | rv64i ii =>
        cases ii <;>
          simp [emit_instruction, instrBody, emit_rv64i, modifies_pc, postOK,
                ite_bind, readG, setG, hpc, hadv, wrap64_idem, wrap64_add_right,
                wrap64_add_left]
      | rv64m mm =>
        cases mm
        all_goals
          simp [emit_instruction, instrBody, emit_rv64m, modifies_pc, postOK,
                ite_bind, readG, setG, hpc, hadv, wrap64_idem, wrap64_add_right,
                wrap64_add_left]
        all_goals
          intro stk' s' hout
          repeat' split at hout
          all_goals
            try simp only [Option.some.injEq, Prod.mk.injEq, reduceCtorEq,
              false_and, and_false] at hout
          all_goals
            first
              | exact hout.elim
              | (obtain ⟨-, h2⟩ := hout; subst h2; simp [hadv])
      | rv64v vv =>
        cases vv <;>
          simp [emit_instruction, instrBody, emit_rvv, modifies_pc, postOK,
                ite_bind, readG, setG, hpc, hadv, wrap64_idem, wrap64_add_right,
                wrap64_add_left]
      | other =>
        simp [emit_instruction, instrBody, modifies_pc, postOK, readG, setG,
              hpc, hadv, wrap64_idem, wrap64_add_right, wrap64_add_left]
    | nop =>
      simp [emit_instruction, instrBody, modifies_pc, postOK, readG, setG, hpc,
            hadv, wrap64_idem, wrap64_add_right, wrap64_add_left]
    | unknown raw =>
      simp [emit_instruction, instrBody, modifies_pc, postOK, readG, setG, hpc,
            hadv, wrap64_idem, wrap64_add_right, wrap64_add_left]
  · cases i with
    | rv32 c =>
      cases c with
      | rv32i ii =>
        cases ii <;> simp_all [modifies_pc, instrBody, emit_rv32i] <;>
          split <;> simp
      | rv32m mm => cases mm <;> simp_all [modifies_pc]
      | rvv vv => cases vv <;> simp_all [modifies_pc]
      | other => simp_all [modifies_pc]
    | rv64 c =>
      cases c with
      | rv64i ii => cases ii <;> simp_all [modifies_pc]
      | rv64m mm => cases mm <;> simp_all [modifies_pc]
      | rv64v vv => cases vv <;> simp_all [modifies_pc]
      | other => simp_all [modifies_pc]
    | nop => simp_all [modifies_pc]
    | unknown raw => simp_all [modifies_pc]

/-- A syscall import that returns 0 and leaves memory and exit flag alone. -/
def trivSys : Sys := fun _ _ m e => (0, m, e)

/-- All-zero machine state. -/
def zeroSt : WState :=
  { x := fun _ => 0, pc := 0, instrCount := 0, exitFlag := 0, vl := 0,
    vtype := 0, mem := fun _ => 0 }

/-- Witness for C1: concrete instantiations of the dispatch contract at
`ADDI x1, x2, 3` (guard mismatch, then guard match) and `BEQ`. -/
theorem emit_instruction_dispatch_contract_witness :
    run trivSys (emit_instruction 4 (.rv32 (.rv32i (.ADDI 1 2 3)))) [] zeroSt
      = some ([], zeroSt)
    ∧ postOK 0 (.rv32 (.rv32i (.ADDI 1 2 3))) zeroSt
        (run trivSys (emit_instruction 0 (.rv32 (.rv32i (.ADDI 1 2 3)))) [] zeroSt)
    ∧ setsPcAll (instrBody (.rv32 (.rv32i (.BEQ 1 2 8)))) = true := by
  refine ⟨?_, ?_, ?_⟩
  · exact (emit_instruction_dispatch_contract trivSys 4
      (.rv32 (.rv32i (.ADDI 1 2 3))) zeroSt).1 (by decide)
  · exact (emit_instruction_dispatch_contract trivSys 0
      (.rv32 (.rv32i (.ADDI 1 2 3))) zeroSt).2.1 (by decide)
  · exact (emit_instruction_dispatch_contract trivSys 0
      (.rv32 (.rv32i (.BEQ 1 2 8))) zeroSt).2.2 (by decide)

/-!
## C2: writes to x0 are only suppressed for JAL and JALR
-/

/-- `containsSetX0 l = true` iff some line of the WAT fragment `l` (including
lines inside `if` blocks) is `global.set $x0`. -/
def containsSetX0 : List Wat → Bool
  | [] => false
  | .globalSet g :: r => g == .x 0 || containsSetX0 r
  | .if_ t e :: r => containsSetX0 t || containsSetX0 e || containsSetX0 r
  | _ :: r => containsSetX0 r

set_option maxHeartbeats 1000000 in
@[simp] theorem containsSetX0_nil : containsSetX0 [] = false := by rw [containsSetX0]

@[simp] theorem containsSetX0_globalSet (g : Glb) (r : List Wat) :
    containsSetX0 (.globalSet g :: r) = (g == .x 0 || containsSetX0 r) := by
  rw [containsSetX0]

@[simp] theorem containsSetX0_if (t e r : List Wat) :
    containsSetX0 (.if_ t e :: r)
      = (containsSetX0 t || containsSetX0 e || containsSetX0 r) := by
  rw [containsSetX0]

@[simp] theorem containsSetX0_comment (c : String) (r : List Wat) :
    containsSetX0 (.comment c :: r) = containsSetX0 r := by
  rw [containsSetX0] <;> simp

@[simp] theorem containsSetX0_globalGet (g : Glb) (r : List Wat) :
    containsSetX0 (.globalGet g :: r) = containsSetX0 r := by
  rw [containsSetX0] <;> simp

@[simp] theorem containsSetX0_i64const (n : Int) (r : List Wat) :
    containsSetX0 (.i64const n :: r) = containsSetX0 r := by
  rw [containsSetX0] <;> simp

@[simp] theorem containsSetX0_i64add (r : List Wat) :
    containsSetX0 (.i64add :: r) = containsSetX0 r := by
  rw [containsSetX0] <;> simp

@[simp] theorem containsSetX0_i64eq (r : List Wat) :
    containsSetX0 (.i64eq :: r) = containsSetX0 r := by
  rw [containsSetX0] <;> simp

@[simp] theorem containsSetX0_i64and (r : List Wat) :
    containsSetX0 (.i64and :: r) = containsSetX0 r := by
  rw [containsSetX0] <;> simp

/-- C2 (the code violates the claim).  The fragment emitted for
`ADDI x0, x0, 0` — the claim's own example — does contain a
`global.set $x0` line: only `JAL` and `JALR` suppress the write when
`rd = 0` (those two fragments contain no `global.set $x0`), and executing
the fragment for `ADDI x0, x5, 1` from a state with `x5 = 41` really does
store 42 into the `$x0` global. -/
theorem emit_addi_x0_emits_global_set_x0 :
    containsSetX0 (emit_instruction 0 (.rv32 (.rv32i (.ADDI 0 0 0)))) = true
    ∧ (∀ imm, containsSetX0 (emit_instruction 0 (.rv32 (.rv32i (.JAL 0 imm)))) = false)
    ∧ (∀ rs1 imm,
        containsSetX0 (emit_instruction 0 (.rv32 (.rv32i (.JALR 0 rs1 imm)))) = false)
    ∧ (run trivSys (emit_instruction 0 (.rv32 (.rv32i (.ADDI 0 5 1)))) []
          { zeroSt with x := upd zeroSt.x 5 41 }).map (fun p => p.2.x 0) = some 42 := by
  refine ⟨?_, ?_, ?_, ?_⟩
  · simp [emit_instruction, instrBody, emit_rv32i, modifies_pc]
  · intro imm
    simp [emit_instruction, instrBody, emit_rv32i, modifies_pc]
  · intro rs1 imm
    simp [emit_instruction, instrBody, emit_rv32i, modifies_pc]
  · simp [emit_instruction, instrBody, emit_rv32i, modifies_pc, readG, setG,
          zeroSt, upd, wrap64]

/-!
## C3: the 64-bit shift instructions mask the count with 31, not 63
-/

/-- C3 (the code violates the claim).  The register-shift lowerings for the
64-bit `SLL`/`SRL`/`SRA` mask the shift count with `i64.const 31` — five
bits, not the six bits the RISC-V semantics and the spec require — while the
W-variants correctly mask with `i32.const 31`.  Executing the `SLL` fragment
with `x2 = 1` and a shift count `x3 = 32` therefore shifts by `32 & 31 = 0`
and writes 1 (RISC-V requires `1 << 32 = 4294967296`). -/
theorem emit_sll_masks_shift_count_with_31 :
    (∀ rd rs1 rs2, emit_rv32i (.SLL rd rs1 rs2) =
      [.globalGet (.x rs1), .globalGet (.x rs2), .i64const 31, .i64and,
       .i64shl, .globalSet (.x rd)])
    ∧ (∀ rd rs1 rs2, emit_rv32i (.SRL rd rs1 rs2) =
      [.globalGet (.x rs1), .globalGet (.x rs2), .i64const 31, .i64and,
       .i64shrU, .globalSet (.x rd)])
    ∧ (∀ rd rs1 rs2, emit_rv32i (.SRA rd rs1 rs2) =
      [.globalGet (.x rs1), .globalGet (.x rs2), .i64const 31, .i64and,
       .i64shrS, .globalSet (.x rd)])
    ∧ (∀ rd rs1 rs2, emit_rv64i (.SLLW rd rs1 rs2) =
      [.globalGet (.x rs1), .i32wrapI64, .globalGet (.x rs2), .i32wrapI64,
       .i32const 31, .i32and, .i32shl, .i64extendI32S, .globalSet (.x rd)])
    ∧ (run trivSys (emit_instruction 0 (.rv32 (.rv32i (.SLL 1 2 3)))) []
          { zeroSt with x := upd (upd zeroSt.x 2 1) 3 32 }).map
        (fun p => p.2.x 1) = some 1 := by
  refine ⟨fun _ _ _ => rfl, fun _ _ _ => rfl, fun _ _ _ => rfl, fun _ _ _ => rfl, ?_⟩
  simp [emit_instruction, instrBody, emit_rv32i, modifies_pc, readG, setG,
        zeroSt, upd, wrap64, toU64]
  decide

/-!
## C4: division and remainder guard their divisor against zero
-/

/-- C4.  Every `DIV`/`DIVU`/`REM`/`REMU` lowering (and each W-variant) tests
its divisor for zero before the WASM division operator: with a zero divisor
the execution always completes without reaching a trapping operator
(`run … = some …`), `DIV`/`DIVU` (and the W-forms) write `-1` (all ones) to
`rd`, and `REM`/`REMU` (and the W-forms) write the dividend `rs1` to `rd`.
For the W-variants the zero test is on the low 32 bits of the divisor. -/
theorem emit_div_zero_divisor_contract :
    (∀ (sys : Sys) (pcv : Int) (rd rs1 rs2 : Nat) (s : WState),
      wrap64 s.pc = wrap64 pcv → wrap64 (s.x rs2) = 0 →
      ∃ s', run sys (emit_instruction pcv (.rv32 (.rv32m (.DIV rd rs1 rs2)))) [] s
          = some ([], s') ∧ s'.x rd = -1)
    ∧ (∀ (sys : Sys) (pcv : Int) (rd rs1 rs2 : Nat) (s : WState),
      wrap64 s.pc = wrap64 pcv → wrap64 (s.x rs2) = 0 →
      ∃ s', run sys (emit_instruction pcv (.rv32 (.rv32m (.DIVU rd rs1 rs2)))) [] s
          = some ([], s') ∧ s'.x rd = -1)
    ∧ (∀ (sys : Sys) (pcv : Int) (rd rs1 rs2 : Nat) (s : WState),
      wrap64 s.pc = wrap64 pcv → wrap64 (s.x rs2) = 0 →
      ∃ s', run sys (emit_instruction pcv (.rv32 (.rv32m (.REM rd rs1 rs2)))) [] s
          = some ([], s') ∧ s'.x rd = wrap64 (s.x rs1))
    ∧ (∀ (sys : Sys) (pcv : Int) (rd rs1 rs2 : Nat) (s : WState),
      wrap64 s.pc = wrap64 pcv → wrap64 (s.x rs2) = 0 →
      ∃ s', run sys (emit_instruction pcv (.rv32 (.rv32m (.REMU rd rs1 rs2)))) [] s
          = some ([], s') ∧ s'.x rd = wrap64 (s.x rs1))
    ∧ (∀ (sys : Sys) (pcv : Int) (rd rs1 rs2 : Nat) (s : WState),
      wrap64 s.pc = wrap64 pcv → wrap32 (wrap64 (s.x rs2)) = 0 →
      ∃ s', run sys (emit_instruction pcv (.rv64 (.rv64m (.DIVW rd rs1 rs2)))) [] s
          = some ([], s') ∧ s'.x rd = -1)
    ∧ (∀ (sys : Sys) (pcv : Int) (rd rs1 rs2 : Nat) (s : WState),
      wrap64 s.pc = wrap64 pcv → wrap32 (wrap64 (s.x rs2)) = 0 →
      ∃ s', run sys (emit_instruction pcv (.rv64 (.rv64m (.DIVUW rd rs1 rs2)))) [] s
          = some ([], s') ∧ s'.x rd = -1)
    ∧ (∀ (sys : Sys) (pcv : Int) (rd rs1 rs2 : Nat) (s : WState),
      wrap64 s.pc = wrap64 pcv → wrap32 (wrap64 (s.x rs2)) = 0 →
      ∃ s', run sys (emit_instruction pcv (.rv64 (.rv64m (.REMW rd rs1 rs2)))) [] s
          = some ([], s') ∧ s'.x rd = wrap64 (s.x rs1))
    ∧ (∀ (sys : Sys) (pcv : Int) (rd rs1 rs2 : Nat) (s : WState),
      wrap64 s.pc = wrap64 pcv → wrap32 (wrap64 (s.x rs2)) = 0 →
      ∃ s', run sys (emit_instruction pcv (.rv64 (.rv64m (.REMUW rd rs1 rs2)))) [] s
          = some ([], s') ∧ s'.x rd = wrap64 (s.x rs1)) := by
  refine ⟨?_, ?_, ?_, ?_, ?_, ?_, ?_, ?_⟩ <;>
    intro sys pcv rd rs1 rs2 s hpc hz <;>
    simp [emit_instruction, instrBody, emit_rv32m, emit_rv64m, modifies_pc,
          readG, setG, hpc, hz, ite_bind, wrap64_idem, wrap64_add_right,
          wrap64_add_left] <;>
    simp [upd, wrap64_idem] <;>
    decide

/-- Witness for C4: the eight zero-divisor contracts applied in the all-zero
state (whose divisor registers read 0), at dispatch address 0. -/
theorem emit_div_zero_divisor_contract_witness :
    (∃ s', run trivSys (emit_instruction 0 (.rv32 (.rv32m (.DIV 1 2 3)))) [] zeroSt
        = some ([], s') ∧ s'.x 1 = -1)
    ∧ (∃ s', run trivSys (emit_instruction 0 (.rv32 (.rv32m (.DIVU 1 2 3)))) [] zeroSt
        = some ([], s') ∧ s'.x 1 = -1)
    ∧ (∃ s', run trivSys (emit_instruction 0 (.rv32 (.rv32m (.REM 1 2 3)))) [] zeroSt
        = some ([], s') ∧ s'.x 1 = wrap64 (zeroSt.x 2))
    ∧ (∃ s', run trivSys (emit_instruction 0 (.rv32 (.rv32m (.REMU 1 2 3)))) [] zeroSt
        = some ([], s') ∧ s'.x 1 = wrap64 (zeroSt.x 2))
    ∧ (∃ s', run trivSys (emit_instruction 0 (.rv64 (.rv64m (.DIVW 1 2 3)))) [] zeroSt
        = some ([], s') ∧ s'.x 1 = -1)
    ∧ (∃ s', run trivSys (emit_instruction 0 (.rv64 (.rv64m (.DIVUW 1 2 3)))) [] zeroSt
        = some ([], s') ∧ s'.x 1 = -1)
    ∧ (∃ s', run trivSys (emit_instruction 0 (.rv64 (.rv64m (.REMW 1 2 3)))) [] zeroSt
        = some ([], s') ∧ s'.x 1 = wrap64 (zeroSt.x 2))
    ∧ (∃ s', run trivSys (emit_instruction 0 (.rv64 (.rv64m (.REMUW 1 2 3)))) [] zeroSt
        = some ([], s') ∧ s'.x 1 = wrap64 (zeroSt.x 2)) := by
  obtain ⟨h1, h2, h3, h4, h5, h6, h7, h8⟩ := emit_div_zero_divisor_contract
  exact ⟨h1 trivSys 0 1 2 3 zeroSt (by decide) (by decide),
         h2 trivSys 0 1 2 3 zeroSt (by decide) (by decide),
         h3 trivSys 0 1 2 3 zeroSt (by decide) (by decide),
         h4 trivSys 0 1 2 3 zeroSt (by decide) (by decide),
         h5 trivSys 0 1 2 3 zeroSt (by decide) (by decide),
         h6 trivSys 0 1 2 3 zeroSt (by decide) (by decide),
         h7 trivSys 0 1 2 3 zeroSt (by decide) (by decide),
         h8 trivSys 0 1 2 3 zeroSt (by decide) (by decide)⟩

/-!
## C5: `AddressMap::from_sections` and the virtual→linear mapping

Embedding of src/middleend/address_map.rs.  A `SectionHeader` together with
its resolved name (`section.get_name`) and raw bytes (`section.raw_data`) is
modelled as one `ElfSection` record; `u32` arithmetic wraps modulo `2^32`.
The `HashMap` `vaddr_to_offset` is modelled as an association list with the
newest insertion in front.
-/

/-- An ELF section as consumed by `AddressMap::from_sections`: address, size
and flags from the header, plus the resolved name and raw data. -/
structure ElfSection where
  address : Nat
  size : Nat
  flags : Nat
  name : String
  data : List Nat

/-- `MemorySegment` (src/middleend/address_map.rs lines 6-17). -/
structure MemorySegment where
  vaddr : Nat
  size : Nat
  data : Option (List Nat)
  writable : Bool
  executable : Bool

/-- `AddressMap` (src/middleend/address_map.rs lines 20-31). -/
structure AddressMap where
  segments : List MemorySegment
  vaddr_to_offset : List (Nat × Nat)
  memory_base : Nat
  min_vaddr : Nat

/-- Is `n` an infix of the second list? -/
def listInfix (n : List Char) : List Char → Bool
  | [] => n.isEmpty
  | c :: t => n.isPrefixOf (c :: t) || listInfix n t

/-- Rust `str::contains` for the section-name tests. -/
def strContains (hay needle : String) : Bool := listInfix needle.toList hay.toList

/-- First-match lookup in the association list modelling the `HashMap`. -/
def lookupA : List (Nat × Nat) → Nat → Option Nat
  | [], _ => none
  | (k, v) :: r, key => if key = k then some v else lookupA r key

/-- The first pass of `from_sections`: minimum `vaddr` over ALLOC sections
with non-zero size, `unwrap_or(0)` (src/middleend/address_map.rs lines
56-71).  In the source this value is only printed. -/
def sectionsMinVaddr (ss : List ElfSection) : Nat :=
  match (ss.filter fun s => decide (0 < s.size) && decide (s.flags &&& 2 ≠ 0)).map
      (fun s => s.address) with
  | [] => 0
  | a :: r => r.foldl min a

/-- One iteration of the second pass of `from_sections`
(src/middleend/address_map.rs lines 83-153). -/
def processSection (m : AddressMap) (s : ElfSection) : AddressMap :=
  if s.size = 0 then m
  else if s.flags &&& 2 = 0 then m
  else
    let is_bss := strContains s.name "bss"
    let is_data := strContains s.name "data" || strContains s.name "rodata"
    let is_text := strContains s.name "text"
    if ¬is_bss ∧ ¬is_data ∧ ¬is_text then m
    else
      let linear_offset := ((s.address - m.min_vaddr) % 2 ^ 32 + m.memory_base) % 2 ^ 32
      let section_data : Option (List Nat) :=
        if is_bss then none else if s.data.isEmpty then none else some s.data
      let seg : MemorySegment :=
        { vaddr := s.address, size := s.size, data := section_data,
          writable := s.flags &&& 1 ≠ 0, executable := s.flags &&& 4 ≠ 0 }
      { m with
        vaddr_to_offset := (s.address, linear_offset) :: m.vaddr_to_offset,
        segments := m.segments ++ [seg] }

/-- `AddressMap::from_sections` (src/middleend/address_map.rs lines 47-156):
starts from `Self::new(0)` (`memory_base = 0`), sets `min_vaddr = 0` (the
computed `sections_min_vaddr` is only printed), then runs the second pass. -/
def AddressMap.from_sections (ss : List ElfSection) : AddressMap :=
  ss.foldl processSection
    { segments := [], vaddr_to_offset := [], memory_base := 0, min_vaddr := 0 }

/-- `AddressMap::vaddr_base` (src/middleend/address_map.rs lines 231-233). -/
def AddressMap.vaddr_base (m : AddressMap) : Nat := m.min_vaddr

/-- The segment-search loop of `vaddr_to_linear`. -/
def findSeg : List MemorySegment → Nat → Option MemorySegment
  | [], _ => none
  | seg :: r, v =>
      if seg.vaddr ≤ v ∧ v < seg.vaddr + seg.size then some seg else findSeg r v

/-- `AddressMap::vaddr_to_linear` (src/middleend/address_map.rs lines
159-170): find the first segment containing `v`, look its base offset up,
return base plus the in-segment offset (`u32` arithmetic). -/
def AddressMap.vaddr_to_linear (m : AddressMap) (v : Nat) : Option Nat :=
  match findSeg m.segments v with
  | none => none
  | some seg =>
      match lookupA m.vaddr_to_offset seg.vaddr with
      | none => none
      | some base => some ((base + (v - seg.vaddr) % 2 ^ 32) % 2 ^ 32)

/-- `v` lies inside one of the stored segments. -/
def inStored (m : AddressMap) (v : Nat) : Prop :=
  ∃ seg ∈ m.segments, seg.vaddr ≤ v ∧ v < seg.vaddr + seg.size

instance (m : AddressMap) (v : Nat) : Decidable (inStored m v) := by
  unfold inStored; infer_instance

theorem lookupA_cons_self (k v : Nat) (r : List (Nat × Nat)) :
    lookupA ((k, v) :: r) k = some v := by
  simp [lookupA]

theorem lookupA_cons_ne {key k : Nat} (v : Nat) (r : List (Nat × Nat))
    (h : key ≠ k) : lookupA ((k, v) :: r) key = lookupA r key := by
  simp [lookupA, h]

theorem processSection_base (m : AddressMap) (s : ElfSection) :
    (processSection m s).min_vaddr = m.min_vaddr
    ∧ (processSection m s).memory_base = m.memory_base := by
  simp only [processSection]
  repeat' split
  all_goals simp

/-- The accumulator invariant of the second pass: bases stay 0 and every
stored segment's address maps to its own address modulo `2^32`. -/
def MapInv (m : AddressMap) : Prop :=
  m.memory_base = 0 ∧ m.min_vaddr = 0
  ∧ ∀ seg ∈ m.segments, lookupA m.vaddr_to_offset seg.vaddr = some (seg.vaddr % 2 ^ 32)

theorem processSection_inv {m : AddressMap} (s : ElfSection) (h : MapInv m) :
    MapInv (processSection m s) := by
  simp only [processSection]
  repeat' split
  any_goals exact h
  all_goals
    obtain ⟨hb, hm, hseg⟩ := h
    refine ⟨hb, hm, ?_⟩
    intro seg hmem
    simp only [List.mem_append, List.mem_singleton] at hmem
    rcases hmem with hold | hnew
    · by_cases heq : seg.vaddr = s.address
      · rw [heq, lookupA_cons_self]
        congr 1
        omega
      · rw [lookupA_cons_ne _ _ heq]
        exact hseg seg hold
    · subst hnew
      simp [lookupA]
      omega

theorem foldl_inv (ss : List ElfSection) :
    ∀ m : AddressMap, MapInv m → MapInv (ss.foldl processSection m) := by
  induction ss with
  | nil => intro m h; exact h
  | cons s r ih => intro m h; exact ih _ (processSection_inv s h)

theorem from_sections_inv (ss : List ElfSection) :
    MapInv (AddressMap.from_sections ss) := by
  apply foldl_inv
  exact ⟨rfl, rfl, by intro seg h; cases h⟩

theorem findSeg_some {l : List MemorySegment} {v : Nat} {seg : MemorySegment}
    (h : findSeg l v = some seg) :
    seg ∈ l ∧ seg.vaddr ≤ v ∧ v < seg.vaddr + seg.size := by
  induction l with
  | nil => cases h
  | cons a r ih =>
    unfold findSeg at h
    split_ifs at h with hr
    · cases h; exact ⟨List.mem_cons_self _ _, hr⟩
    · obtain ⟨hmem, hrange⟩ := ih h
      exact ⟨List.mem_cons_of_mem _ hmem, hrange⟩

theorem findSeg_none_iff (l : List MemorySegment) (v : Nat) :
    findSeg l v = none ↔ ∀ seg ∈ l, ¬(seg.vaddr ≤ v ∧ v < seg.vaddr + seg.size) := by
  induction l with
  | nil => simp [findSeg]
  | cons a r ih =>
    unfold findSeg
    split_ifs with hr
    · constructor
      · intro h; cases h
      · intro hall; exact absurd hr (hall a (List.mem_cons_self _ _))
    · rw [ih]
      constructor
      · intro h seg hmem
        rcases List.mem_cons.mp hmem with rfl | hmem'
        · exact hr
        · exact h seg hmem'
      · intro h seg hmem
        exact h seg (List.mem_cons_of_mem _ hmem)

/-- C5 counterexample.  For a single ALLOC `.text` section at
`vaddr = 0x1000`, the minimum vaddr over the candidate sections is `0x1000`,
but `vaddr_base()` of the constructed map is 0 — `from_sections` discards
the computed section minimum and stores 0. -/
theorem from_sections_vaddr_base_ne_section_min :
    (AddressMap.from_sections
        [⟨0x1000, 4, 2, ".text", [1, 2, 3, 4]⟩]).vaddr_base = 0
    ∧ sectionsMinVaddr [⟨0x1000, 4, 2, ".text", [1, 2, 3, 4]⟩] = 0x1000
    ∧ (AddressMap.from_sections [⟨0x1000, 4, 2, ".text", [1, 2, 3, 4]⟩]).vaddr_base
        ≠ sectionsMinVaddr [⟨0x1000, 4, 2, ".text", [1, 2, 3, 4]⟩] := by
  refine ⟨rfl, by decide, by decide⟩

/-- C5 amended.  `vaddr_base()` is 0 for every map built by `from_sections`
(the candidate-section minimum is computed only for a diagnostic printout);
for every `v` inside a stored segment, `vaddr_to_linear v` equals
`some ((v − vaddr_base + memory_base) mod 2^32)` with `vaddr_base = 0` and
`memory_base = 0`; for `v` outside every stored segment it returns `none`. -/
theorem from_sections_linear_map_contract (ss : List ElfSection) :
    (AddressMap.from_sections ss).vaddr_base = 0
    ∧ (AddressMap.from_sections ss).memory_base = 0
    ∧ (∀ v : Nat, inStored (AddressMap.from_sections ss) v →
        (AddressMap.from_sections ss).vaddr_to_linear v
          = some ((v - (AddressMap.from_sections ss).vaddr_base
                    + (AddressMap.from_sections ss).memory_base) % 2 ^ 32))
    ∧ (∀ v : Nat, ¬inStored (AddressMap.from_sections ss) v →
        (AddressMap.from_sections ss).vaddr_to_linear v = none) := by
  obtain ⟨hb, hm, hseg⟩ := from_sections_inv ss
  refine ⟨hm, hb, ?_, ?_⟩
  · intro v hv
    unfold AddressMap.vaddr_to_linear
    have hfind : ∃ seg, findSeg (AddressMap.from_sections ss).segments v = some seg := by
      cases hcase : findSeg (AddressMap.from_sections ss).segments v with
      | some seg => exact ⟨seg, rfl⟩
      | none =>
        obtain ⟨seg, hmem, hrange⟩ := hv
        exact absurd hrange ((findSeg_none_iff _ _).mp hcase seg hmem)
    obtain ⟨seg, hfind⟩ := hfind
    obtain ⟨hmem, hle, _⟩ := findSeg_some hfind
    simp only [hfind, hseg seg hmem, AddressMap.vaddr_base, hm, hb]
    congr 1
    omega
  · intro v hv
    unfold AddressMap.vaddr_to_linear
    rw [(findSeg_none_iff _ _).mpr ?_]
    intro seg hmem hrange
    exact hv ⟨seg, hmem, hrange⟩

/-- Witness for C5: the amended contract applied to a single `.text` section
at `0x1000`, translated inside (`0x1001 ↦ 0x1001`) and outside (`0x2000`). -/
theorem from_sections_linear_map_contract_witness :
    (AddressMap.from_sections
        [⟨0x1000, 4, 2, ".text", [1, 2, 3, 4]⟩]).vaddr_to_linear 0x1001
      = some 0x1001
    ∧ (AddressMap.from_sections
        [⟨0x1000, 4, 2, ".text", [1, 2, 3, 4]⟩]).vaddr_to_linear 0x2000
      = none := by
  obtain ⟨h1, h2, h3, h4⟩ :=
    from_sections_linear_map_contract [⟨0x1000, 4, 2, ".text", [1, 2, 3, 4]⟩]
  constructor
  · rw [h3 0x1001 (by decide), h1, h2]
    norm_num
  · exact h4 0x2000 (by decide)

/-!
## C6: `ElfFile::new`

Embedding of src/frontend/elf.rs lines 123-147.  The input byte slice is a
`List Nat`; `zero::read` through an out-of-range slice `&input[a..b]` is a
Rust panic, modelled as the distinguished outcome `panic`.  `HeaderPt1` is
16 bytes; `HeaderPt2_<u32>` is 36 bytes and `HeaderPt2_<u64>` 48 bytes
(`repr` of the field lists at lines 162-170 and 499-513). -/

/-- `ElfError` (src/frontend/elf.rs lines 16-29). -/
inductive ElfError where
  | malformed (msg : String)
  | notMeet (msg : String)
  | badMagic (v : Nat)
  | addressError (addr : Nat) (msg : String)
  deriving DecidableEq, Repr

/-- Outcome of `ElfFile::new`: `Ok` (carrying the accepted class byte),
`Err`, or a Rust panic from an out-of-bounds slice. -/
inductive ElfNewResult where
  | ok (cls : Nat)
  | err (e : ElfError)
  | panic
  deriving DecidableEq, Repr

/-- `Class` (src/frontend/elf.rs lines 234-241). -/
inductive ElfClass where
  | none
  | thirtyTwo
  | sixtyFour
  | other (b : Nat)
  deriving DecidableEq, Repr

/-- `HeaderPt1::get_class` (src/frontend/elf.rs lines 186-193) applied to
byte 4 of the input. -/
def get_class (b : Nat) : ElfClass :=
  if b = 0 then .none
  else if b = 1 then .thirtyTwo
  else if b = 2 then .sixtyFour
  else .other b

/-- `ElfFile::new` (src/frontend/elf.rs lines 123-147): reject inputs
shorter than `HeaderPt1` (16 bytes); match on the class byte — 32-bit and
64-bit classes read `HeaderPt2_` from bytes `16..52` resp. `16..64`
(panicking when the input is too short for that slice); any other class is
`Malformed("Invalid ELF Class")`.  No magic-number check is performed. -/
def ElfFile.new (input : List Nat) : ElfNewResult :=
  if input.length < 16 then
    .err (.malformed "File is shorter than the first ELF header")
  else
    match get_class (input.getD 4 0) with
    | .thirtyTwo => if 16 + 36 ≤ input.length then .ok 1 else .panic
    | .sixtyFour => if 16 + 48 ≤ input.length then .ok 2 else .panic
    | _ => .err (.malformed "Invalid ELF Class")

/-- The four ELF magic bytes `\x7fELF`. -/
def elfMagic : List Nat := [0x7f, 0x45, 0x4c, 0x46]

/-- A 64-byte input with class byte 2 and no ELF magic. -/
def noMagic64 : List Nat := (List.replicate 64 0).set 4 2

/-- C6 counterexample.  `ElfFile::new` performs no magic check: the 64-byte
all-zero input with class byte 2 has the wrong magic yet parses `Ok`; and
`new` can panic rather than return a `Result` — a 16-byte input with class
byte 2 makes the `HeaderPt2` slice go out of bounds. -/
theorem elf_new_no_magic_check_counterexample :
    ElfFile.new noMagic64 = .ok 2
    ∧ noMagic64.take 4 ≠ elfMagic
    ∧ ElfFile.new ((List.replicate 16 0).set 4 2) = .panic := by
  refine ⟨by decide, by decide, by decide⟩

/-- C6 amended.  `ElfFile::new` returns `Err(Malformed)` for an input
shorter than the 16-byte `HeaderPt1` and for a class byte other than 1 (32)
or 2 (64); it never returns `BadMagic` (the magic bytes are not inspected);
and it returns `Ok` only when the length and class validations pass.  It is
not panic-free: with a valid class byte but an input shorter than
`HeaderPt1 + HeaderPt2`, the header slice panics. -/
theorem elf_new_contract (input : List Nat) :
    (input.length < 16 →
      ElfFile.new input = .err (.malformed "File is shorter than the first ELF header"))
    ∧ (16 ≤ input.length → input.getD 4 0 ≠ 1 → input.getD 4 0 ≠ 2 →
      ElfFile.new input = .err (.malformed "Invalid ELF Class"))
    ∧ (∀ v, ElfFile.new input ≠ .err (.badMagic v))
    ∧ (∀ c, ElfFile.new input = .ok c → 16 ≤ input.length ∧ (c = 1 ∨ c = 2)) := by
  refine ⟨?_, ?_, ?_, ?_⟩
  · intro h
    simp [ElfFile.new, h]
  · intro hlen h1 h2
    unfold ElfFile.new get_class
    rw [if_neg (by omega)]
    split_ifs <;> rfl
  · intro v
    unfold ElfFile.new get_class
    split_ifs <;> simp
  · intro c h
    unfold ElfFile.new get_class at h
    split_ifs at h <;> simp_all

/-- Witness for C6: the amended contract applied at the empty input, a
20-byte class-3 input, and the magic-less 64-byte class-2 input. -/
theorem elf_new_contract_witness :
    ElfFile.new [] = .err (.malformed "File is shorter than the first ELF header")
    ∧ ElfFile.new ((List.replicate 20 0).set 4 3) = .err (.malformed "Invalid ELF Class")
    ∧ ElfFile.new noMagic64 ≠ .err (.badMagic 0)
    ∧ 16 ≤ noMagic64.length ∧ ((2:Nat) = 1 ∨ (2:Nat) = 2) := by
  refine ⟨(elf_new_contract []).1 (by decide),
          (elf_new_contract _).2.1 (by decide) (by decide) (by decide),
          (elf_new_contract _).2.2.1 0,
          (elf_new_contract noMagic64).2.2.2 2 (by decide)⟩

/-!
## C7: the runtime syscall dispatcher

Embedding of `RiscVRuntime::syscall_handler`
(src/backend/wasm_builder.rs lines 457-968).  The handler's environment
gives it the instance memory (when bound), the exported `set_exit_flag`
function, the `brk` pointer, and the host stdio streams; the WASI
environment is never stored by the runtime (wasm_builder.rs lines 350-353),
so the `write` arm always takes its fallback path.  Host stdio writes are
modelled as always succeeding in full.  Diagnostic `eprintln!` calls carry
no state and are omitted. -/

/-- The state reachable from the syscall handler. -/
structure SyscallEnvM where
  memory : Option (Nat → Nat)
  exitFlagSet : Bool
  programBreak : Int
  hostStdout : List Nat
  hostStderr : List Nat

/-- Write a list of bytes into memory at an address. -/
def memWriteBytes (m : Nat → Nat) (a : Nat) : List Nat → (Nat → Nat)
  | [] => m
  | b :: bs => memWriteBytes (upd m a (b % 256)) (a + 1) bs

/-- Read `k` bytes starting at `a`. -/
def memReadBytes (m : Nat → Nat) (a k : Nat) : List Nat :=
  (List.range k).map fun i => m (a + i) % 256

/-- The iovec buffers traversed by the `writev` arm: entry `i` is 16 bytes
at `iov + 16*i`, a little-endian base pointer then a length. -/
def writevBufs (m : Nat → Nat) (iovAddr cnt : Nat) : List (List Nat) :=
  (List.range cnt).map fun i =>
    memReadBytes m (readLE m (iovAddr + 16 * i) 8) (readLE m (iovAddr + 16 * i + 8) 8)

/-- Route a written buffer to the host stream selected by `fd`. -/
def hostWrite (st : SyscallEnvM) (fd : Int) (buf : List Nat) : SyscallEnvM :=
  if fd = 1 then { st with hostStdout := st.hostStdout ++ buf }
  else if fd = 2 then { st with hostStderr := st.hostStderr ++ buf }
  else st

/-- `uname` strings (src/backend/wasm_builder.rs lines 908-912), as bytes. -/
def unameImage (m : Nat → Nat) (a : Nat) : Nat → Nat :=
  memWriteBytes
    (memWriteBytes
      (memWriteBytes
        (memWriteBytes
          (memWriteBytes m a [76, 105, 110, 117, 120, 0])
          (a + 65) [100, 111, 117, 98, 108, 101, 106, 105, 116, 0])
        (a + 130) [53, 46, 49, 53, 46, 48, 0])
      (a + 195) [35, 49, 32, 83, 77, 80, 0])
    (a + 260) [114, 105, 115, 99, 118, 54, 52, 0]

/-- The minimal synthetic `fstat` image (src/backend/wasm_builder.rs lines
658-696): 128 zero bytes, then `st_mode` at +16, uid/gid 1000 at +24/+28
and blksize 4096 at +48. -/
def fstatImage (m : Nat → Nat) (a : Nat) (fd : Int) : Nat → Nat :=
  let mode : Nat := if fd = 0 ∨ fd = 1 ∨ fd = 2 then 0o020666 else 0o100666
  memWriteBytes
    (memWriteBytes
      (memWriteBytes
        (memWriteBytes
          (memWriteBytes m a (List.replicate 128 0))
          (a + 16) [mode % 256, mode / 256 % 256, mode / 65536 % 256, mode / 16777216 % 256])
        (a + 24) [232, 3, 0, 0])
      (a + 28) [232, 3, 0, 0])
    (a + 48) [0, 16, 0, 0, 0, 0, 0, 0]

/-- The pseudo-random `getrandom` payload: byte `i` is `(i*17 + 42) % 256`
(src/backend/wasm_builder.rs lines 809-814). -/
def getrandomBytes (k : Nat) : List Nat :=
  (List.range k).map fun i => (i * 17 + 42) % 256

/-- The syscall numbers with a dedicated arm in the dispatcher's `match`. -/
def implementedSyscalls : List Int :=
  [93, 64, 66, 63, 214, 57, 62, 80, 169, 113, 403, 174, 175, 176, 177, 226,
   98, 99, 222, 261, 94, 131, 172, 178, 318, 278, 158, 334, 293, 89, 21, 17,
   179, 135, 134, 13, 96, 160]

/-- `RiscVRuntime::syscall_handler` (src/backend/wasm_builder.rs lines
457-968), as a function from the syscall number, the six arguments and the
handler state to the i64 result and the new state.  Arm order follows the
source `match`. -/
def syscall_handler (n a1 a2 a3 a4 a5 a6 : Int) (st : SyscallEnvM) :
    Int × SyscallEnvM :=
  if n = 93 then (a1, { st with exitFlagSet := true })
  else if n = 64 then
    match st.memory with
    | some m =>
        let count := (toU64 a3).toNat
        (count, hostWrite st a1 (memReadBytes m (toU64 a2).toNat count))
    | none => ((toU64 a3).toNat, st)
  else if n = 66 then
    match st.memory with
    | some m =>
        let bufs := writevBufs m (toU64 a2).toNat (toU64 a3).toNat
        ((bufs.map List.length).sum, bufs.foldl (fun acc b => hostWrite acc a1 b) st)
    | none => (0, st)
  else if n = 63 then (0, st)
  else if n = 214 then
    if a1 = 0 then (st.programBreak, st) else (a1, { st with programBreak := a1 })
  else if n = 57 then (0, st)
  else if n = 62 then (a2, st)
  else if n = 80 then
    match st.memory with
    | some m => (0, { st with memory := some (fstatImage m (toU64 a2).toNat a1) })
    | none => (-1, st)
  else if n = 169 then
    match st.memory with
    | some m =>
        (0, { st with memory := some (memWriteBytes m (toU64 a1).toNat
          [0, 241, 83, 101, 0, 0, 0, 0, 0, 0, 0, 0, 0, 0, 0, 0]) })
    | none => (-1, st)
  else if n = 113 ∨ n = 403 then
    match st.memory with
    | some m =>
        (0, { st with memory := some (memWriteBytes m (toU64 a2).toNat
          [0, 241, 83, 101, 0, 0, 0, 0, 0, 0, 0, 0, 0, 0, 0, 0]) })
    | none => (-1, st)
  else if n = 174 then (1000, st)
  else if n = 175 then (1000, st)
  else if n = 176 then (1000, st)
  else if n = 177 then (1000, st)
  else if n = 226 then (0, st)
  else if n = 98 then (0, st)
  else if n = 99 then (0, st)
  else if n = 222 then (a1, st)
  else if n = 261 then (0, st)
  else if n = 94 then (a1, { st with exitFlagSet := true })
  else if n = 131 then (0, st)
  else if n = 172 then (1000, st)
  else if n = 178 then (1000, st)
  else if n = 318 ∨ n = 278 then
    match st.memory with
    | some m =>
        let len := (toU64 a2).toNat
        (len, { st with memory := some (memWriteBytes m (toU64 a1).toNat
          (getrandomBytes len)) })
    | none => (-1, st)
  else if n = 158 then (0, st)
  else if n = 334 ∨ n = 293 then (0, st)
  else if n = 89 then (-2, st)
  else if n = 21 then (-2, st)
  else if n = 17 then
    match st.memory with
    | some m => (a1, { st with memory := some (memWriteBytes m (toU64 a1).toNat [47, 0]) })
    | none => (-1, st)
  else if n = 179 then (0, st)
  else if n = 135 then (0, st)
  else if n = 134 then (0, st)
  else if n = 13 then (0, st)
  else if n = 96 then (1000, st)
  else if n = 160 then
    match st.memory with
    | some m => (0, { st with memory := some (unameImage m (toU64 a1).toNat) })
    | none => (-1, st)
  else
    if 500 < n ∨ n < 0 then (-38, st) else (-38, st)

/-- C7.  Every syscall number without a dedicated arm returns `-38` (ENOSYS)
and leaves the handler state untouched; in particular every number above
500 and every negative number has no dedicated arm (all implemented numbers
lie in `13..403`), so such numbers also return `-38` unchanged. -/
theorem syscall_handler_unknown_enosys :
    (∀ (n a1 a2 a3 a4 a5 a6 : Int) (st : SyscallEnvM),
      n ∉ implementedSyscalls → syscall_handler n a1 a2 a3 a4 a5 a6 st = (-38, st))
    ∧ (∀ n : Int, 500 < n ∨ n < 0 → n ∉ implementedSyscalls) := by
  constructor
  · intro n a1 a2 a3 a4 a5 a6 st hn
    simp only [implementedSyscalls, List.mem_cons, List.not_mem_nil, or_false] at hn
    push_neg at hn
    obtain ⟨e1, e2, e3, e4, e5, e6, e7, e8, e9, e10, e11, e12, e13, e14, e15,
      e16, e17, e18, e19, e20, e21, e22, e23, e24, e25, e26, e27, e28, e29,
      e30, e31, e32, e33, e34, e35, e36, e37, e38⟩ := hn
    simp [syscall_handler, e1, e2, e3, e4, e5, e6, e7, e8, e9, e10, e11, e12,
      e13, e14, e15, e16, e17, e18, e19, e20, e21, e22, e23, e24, e25, e26,
      e27, e28, e29, e30, e31, e32, e33, e34, e35, e36, e37, e38]
  · intro n hn hmem
    simp only [implementedSyscalls, List.mem_cons, List.not_mem_nil, or_false] at hmem
    omega

/-- Witness for C7: syscall numbers 45 (unimplemented, in range), 501 and
-1 all return ENOSYS with the state unchanged. -/
theorem syscall_handler_unknown_enosys_witness :
    syscall_handler 45 0 0 0 0 0 0
        ⟨none, false, 0x100000, [], []⟩ = (-38, ⟨none, false, 0x100000, [], []⟩)
    ∧ syscall_handler 501 1 2 3 4 5 6
        ⟨none, false, 0x100000, [], []⟩ = (-38, ⟨none, false, 0x100000, [], []⟩)
    ∧ syscall_handler (-1) 0 0 0 0 0 0
        ⟨none, false, 0x100000, [], []⟩ = (-38, ⟨none, false, 0x100000, [], []⟩)
    ∧ (501 : Int) ∉ implementedSyscalls := by
  obtain ⟨h1, h2⟩ := syscall_handler_unknown_enosys
  exact ⟨h1 45 0 0 0 0 0 0 _ (by decide),
         h1 501 1 2 3 4 5 6 _ (h2 501 (by norm_num)),
         h1 (-1) 0 0 0 0 0 0 _ (h2 (-1) (by norm_num)),
         h2 501 (by norm_num)⟩

/-!
## C8, C9: the WAT optimizer

Embedding of src/codegen/optimizer.rs.  The passes work line by line on the
WAT text; `rustLines` models Rust's `str::lines` (split on `\n`, no entry
for a trailing newline, a trailing `\r` stripped), and each pass rebuilds
its output by appending `line + "\n"` for every emitted line, exactly as
the source pushes `line` then `'\n'`.  Prefix tests are byte tests on ASCII
text, modelled on the character lists. -/

/-- Rust `str::starts_with` for string prefixes. -/
def strStarts (s p : String) : Bool := p.toList.isPrefixOf s.toList

/-- Rust `str::strip_prefix`. -/
def stripPrefixS (s p : String) : Option String :=
  if strStarts s p then some (String.mk (s.toList.drop p.toList.length)) else none

/-- Split a character list at every newline. -/
def splitLines : List Char → List (List Char)
  | [] => [[]]
  | c :: rest =>
    if c = '\n' then [] :: splitLines rest
    else
      match splitLines rest with
      | [] => [[c]]
      | l :: ls => (c :: l) :: ls

/-- Rust `str::lines`: split on `\n`, no entry for a trailing newline, and
strip one trailing `\r` from each line. -/
def rustLines (s : String) : List String :=
  let parts := splitLines s.toList
  let parts :=
    match parts.getLast? with
    | some [] => parts.dropLast
    | _ => parts
  parts.map fun l => String.mk (if l.getLast? = some '\r' then l.dropLast else l)

/-- Rebuild the output text: every line is followed by `\n`. -/
def unlines (ls : List String) : String := String.join (ls.map (· ++ "\n"))

/-- Rust `str::parse::<i64>()`: an optional sign, digits, and an i64 range
check.  (A leading `+`, which Rust also accepts, is not modelled; no input
in this development carries one.) -/
def parseI64 (s : String) : Option Int :=
  match s.toInt? with
  | some v => if -(2 ^ 63) ≤ v ∧ v < 2 ^ 63 then some v else none
  | none => none

/-- The `{:indent$}` padding used when a pass rewrites a line in place. -/
def mkSpaces (n : Nat) : String := String.mk (List.replicate n ' ')

/-- Indentation width of a line: `line.len() - line.trim_start().len()`. -/
def indentOf (line : String) : Nat := line.length - line.trimLeft.length

/-- `OptLevel` (src/codegen/optimizer.rs lines 17-27). -/
inductive OptLevel where
  | none
  | basic
  | moderate
  | aggressive
  deriving DecidableEq, Repr

/-- `OptStats` (src/codegen/optimizer.rs lines 40-59). -/
structure OptStats where
  constants_propagated : Nat
  dead_code_eliminated : Nat
  redundant_loads_eliminated : Nat
  redundant_stores_eliminated : Nat
  branches_simplified : Nat
  peephole_optimizations : Nat
  deriving DecidableEq, Repr

/-- `OptStats::total` (src/codegen/optimizer.rs lines 75-82). -/
def OptStats.total (s : OptStats) : Nat :=
  s.constants_propagated + s.dead_code_eliminated + s.redundant_loads_eliminated
    + s.redundant_stores_eliminated + s.branches_simplified + s.peephole_optimizations

/-- `WatOptimizer` (src/codegen/optimizer.rs lines 30-37). -/
structure WatOptimizer where
  opt_level : OptLevel
  stats : OptStats

/-- `WatOptimizer::new` with `OptStats::default()`. -/
def WatOptimizer.new (l : OptLevel) : WatOptimizer := ⟨l, ⟨0, 0, 0, 0, 0, 0⟩⟩

/-- Remove a key from the association-list model of a `HashMap`. -/
def eraseS {β : Type} (c : List (String × β)) (k : String) : List (String × β) :=
  c.filter fun p => p.1 ≠ k

/-- Overwriting insertion. -/
def insertS {β : Type} (c : List (String × β)) (k : String) (v : β) :
    List (String × β) :=
  (k, v) :: eraseS c k

/-- First-match lookup. -/
def lookupS {β : Type} : List (String × β) → String → Option β
  | [], _ => none
  | (k, v) :: r, key => if key = k then some v else lookupS r key

/-- The constant-registration step of `constant_propagation`
(src/codegen/optimizer.rs lines 144-157): on a `global.set $x…` line whose
previously emitted line is `i64.const N`, record the pair. -/
def cpRegister (c : List (String × Int)) (result : List String)
    (trimmed : String) : List (String × Int) :=
  if strStarts trimmed "global.set $x" then
    match stripPrefixS trimmed "global.set ",
          result.getLast?.bind fun prev =>
            (stripPrefixS prev.trim "i64.const ").bind parseI64 with
    | some set_reg, some v => insertS c set_reg v
    | _, _ => c
  else c

/-- The invalidation step (src/codegen/optimizer.rs lines 172-177): any
write to a register drops its recorded constant. -/
def cpInvalidate (c : List (String × Int)) (trimmed : String) :
    List (String × Int) :=
  if strStarts trimmed "global.set $x" then
    match stripPrefixS trimmed "global.set " with
    | some set_reg => eraseS c set_reg
    | none => c
  else c

/-- The line loop of `constant_propagation` (src/codegen/optimizer.rs lines
141-181): register, replace a `global.get` with a recorded constant
(counting it), invalidate on writes, and copy the line otherwise. -/
def cpGo : List (String × Int) → List String → List String → Nat →
    List String × Nat
  | _, [], result, k => (result, k)
  | c, line :: rest, result, k =>
    let trimmed := line.trim
    let c1 := cpRegister c result trimmed
    if strStarts trimmed "global.get $x" then
      match stripPrefixS trimmed "global.get " with
      | some get_reg =>
        match lookupS c1 get_reg with
        | some v =>
            cpGo c1 rest
              (result ++ [mkSpaces (indentOf line) ++ "i64.const " ++ toString v])
              (k + 1)
        | none => cpGo (cpInvalidate c1 trimmed) rest (result ++ [line]) k
      | none => cpGo (cpInvalidate c1 trimmed) rest (result ++ [line]) k
    else cpGo (cpInvalidate c1 trimmed) rest (result ++ [line]) k

/-- `WatOptimizer::constant_propagation` (src/codegen/optimizer.rs lines
137-184). -/
def WatOptimizer.constant_propagation (o : WatOptimizer) (wat : String) :
    String × WatOptimizer :=
  let r := cpGo [] (rustLines wat) [] 0
  (unlines r.1,
   { o with stats :=
      { o.stats with constants_propagated := o.stats.constants_propagated + r.2 } })

/-- The line loop of `dead_code_elimination` (src/codegen/optimizer.rs
lines 187-222), carrying the `skip_until_end` counter. -/
def dceGo : Nat → List String → List String → Nat → List String × Nat
  | _, [], result, k => (result, k)
  | skip, line :: rest, result, k =>
    let t := line.trim
    if 0 < skip then
      if t = "end" ∨ t = "else" then
        if skip - 1 = 0 then dceGo 0 rest (result ++ [line]) k
        else dceGo (skip - 1) rest result k
      else if strStarts t "if" ∨ strStarts t "block" ∨ strStarts t "loop" then
        dceGo (skip + 1) rest result k
      else dceGo skip rest result k
    else if t = "return" ∨ strStarts t "br " ∨ t = "unreachable" then
      dceGo 1 rest (result ++ [line]) (k + 1)
    else dceGo skip rest (result ++ [line]) k

/-- `WatOptimizer::dead_code_elimination`. -/
def WatOptimizer.dead_code_elimination (o : WatOptimizer) (wat : String) :
    String × WatOptimizer :=
  let r := dceGo 0 (rustLines wat) [] 0
  (unlines r.1,
   { o with stats :=
      { o.stats with dead_code_eliminated := o.stats.dead_code_eliminated + r.2 } })

/-- The pair patterns of `peephole_optimization` that drop two lines
(src/codegen/optimizer.rs lines 234-254): `i64.const 0` before
`i64.add`/`i64.or`/`i64.xor`, and `i64.const 1` before `i64.mul`. -/
def peepSkipPair (t n1t : String) : Bool :=
  (t == "i64.const 0" && (n1t == "i64.add" || n1t == "i64.or" || n1t == "i64.xor"))
  || (t == "i64.const 1" && n1t == "i64.mul")

/-- The `global.get $xK; global.set $xK` pair pattern
(src/codegen/optimizer.rs lines 256-267). -/
def peepGetSetPair (t n1t : String) : Bool :=
  strStarts t "global.get $x"
  && (match stripPrefixS t "global.get " with
      | some get_reg => n1t == "global.set " ++ get_reg
      | none => false)

/-- The two-constant folding pattern (src/codegen/optimizer.rs lines
269-293): `i64.const A; i64.const B; i64.add|i64.mul` becomes one wrapped
constant. -/
def peepFold (t n1t n2t : String) : Option Int :=
  if strStarts t "i64.const " then
    ((stripPrefixS t "i64.const ").bind parseI64).bind fun v1 =>
      ((stripPrefixS n1t "i64.const ").bind parseI64).bind fun v2 =>
        if n2t = "i64.add" then some (wrap64 (v1 + v2))
        else if n2t = "i64.mul" then some (wrap64 (v1 * v2))
        else none
  else none

/-- The lookahead loop of `peephole_optimization` (src/codegen/optimizer.rs
lines 225-301).  The pair patterns need one line of lookahead and the
folding pattern two; a line matching none of them is copied. -/
def peepGo : List String → List String → Nat → List String × Nat
  | [], result, k => (result, k)
  | [line], result, k => (result ++ [line], k)
  | [line, n1], result, k =>
    if peepSkipPair line.trim n1.trim || peepGetSetPair line.trim n1.trim then
      (result, k + 1)
    else peepGo [n1] (result ++ [line]) k
  | line :: n1 :: n2 :: rest2, result, k =>
    if peepSkipPair line.trim n1.trim || peepGetSetPair line.trim n1.trim then
      peepGo (n2 :: rest2) result (k + 1)
    else
      match peepFold line.trim n1.trim n2.trim with
      | some v =>
          peepGo rest2
            (result ++ [mkSpaces (indentOf line) ++ "i64.const " ++ toString v])
            (k + 1)
      | none => peepGo (n1 :: n2 :: rest2) (result ++ [line]) k

/-- `WatOptimizer::peephole_optimization`. -/
def WatOptimizer.peephole_optimization (o : WatOptimizer) (wat : String) :
    String × WatOptimizer :=
  let r := peepGo (rustLines wat) [] 0
  (unlines r.1,
   { o with stats :=
      { o.stats with peephole_optimizations := o.stats.peephole_optimizations + r.2 } })

/-- The loop of `redundant_store_elimination` (src/codegen/optimizer.rs
lines 304-343): two consecutive identical `global.set $x…` lines (comments
and blank lines in between allowed) drop the earlier one. -/
def rstoreGo : Option String → List String → List String → Nat →
    List String × Nat
  | _, [], result, k => (result, k)
  | last_store, line :: rest, result, k =>
    let t := line.trim
    if strStarts t "global.set $x" then
      if last_store = some t then
        rstoreGo (some t) rest (result.dropLast ++ [line]) (k + 1)
      else rstoreGo (some t) rest (result ++ [line]) k
    else if ¬t.isEmpty ∧ ¬strStarts t ";;" then
      rstoreGo Option.none rest (result ++ [line]) k
    else rstoreGo last_store rest (result ++ [line]) k

/-- `WatOptimizer::redundant_store_elimination`. -/
def WatOptimizer.redundant_store_elimination (o : WatOptimizer) (wat : String) :
    String × WatOptimizer :=
  let r := rstoreGo Option.none (rustLines wat) [] 0
  (unlines r.1,
   { o with stats :=
      { o.stats with redundant_stores_eliminated :=
          o.stats.redundant_stores_eliminated + r.2 } })

/-- The back-scan of `redundant_load_elimination`: any `global.set` line
strictly between indices `j` and `i`. -/
def hasStoreBetween (lines : List String) (j i : Nat) : Bool :=
  ((lines.drop j).take (i - j)).any fun l => strStarts l.trim "global.set"

/-- The loop of `redundant_load_elimination` (src/codegen/optimizer.rs
lines 346-387) over the enumerated lines, with the `last_loaded` index
map. -/
def rloadGo (lines : List String) : List (Nat × String) → List (String × Nat) →
    List String → Nat → List String × Nat
  | [], _, result, k => (result, k)
  | (i, line) :: rest, last_loaded, result, k =>
    let t := line.trim
    if strStarts t "global.get $x" then
      match lookupS last_loaded t with
      | some j =>
          if hasStoreBetween lines j i = false then
            rloadGo lines rest last_loaded result (k + 1)
          else rloadGo lines rest (insertS last_loaded t i) (result ++ [line]) k
      | none => rloadGo lines rest (insertS last_loaded t i) (result ++ [line]) k
    else if strStarts t "global.set" then
      rloadGo lines rest [] (result ++ [line]) k
    else rloadGo lines rest last_loaded (result ++ [line]) k

/-- `WatOptimizer::redundant_load_elimination`. -/
def WatOptimizer.redundant_load_elimination (o : WatOptimizer) (wat : String) :
    String × WatOptimizer :=
  let lines := rustLines wat
  let r := rloadGo lines lines.enum [] [] 0
  (unlines r.1,
   { o with stats :=
      { o.stats with redundant_loads_eliminated :=
          o.stats.redundant_loads_eliminated + r.2 } })

/-- The skip-then scan of the `i64.const 0; if` case of
`branch_simplification` (src/codegen/optimizer.rs lines 400-431): skip the
then-branch at matching depth; on an `else` at depth 1 copy lines up to the
next literal `end`; when the matching `end` closes the block, the source's
final `i += 1` also drops the line following it.  Returns the emitted lines
and the remaining input. -/
def bsConst0Go : List String → Nat → List String × List String
  | [], _ => ([], [])
  | line :: rest, depth =>
    let t := line.trim
    if t = "if" ∨ strStarts t "if " then bsConst0Go rest (depth + 1)
    else if t = "end" then
      if depth = 1 then ([], rest.drop 1)
      else bsConst0Go rest (depth - 1)
    else if t = "else" ∧ depth = 1 then bsCopyElse rest
    else bsConst0Go rest depth
where
  /-- Copy lines until the first literal `end`. -/
  bsCopyElse : List String → List String × List String
    | [] => ([], [])
    | line :: rest =>
      if line.trim = "end" then ([], rest)
      else
        let r := bsCopyElse rest
        (line :: r.1, r.2)

/-- The skip-else loop of the `i64.const 1; if` case: drop lines until the
first literal `end`. -/
def bsSkipElse : List String → List String
  | [] => []
  | line :: rest => if line.trim = "end" then rest else bsSkipElse rest

/-- The copy-then scan of the `i64.const 1; if` case of
`branch_simplification` (src/codegen/optimizer.rs lines 435-470): copy the
then-branch (tracking depth), drop the `else` branch at depth 1, stop
before the matching `end`. -/
def bsConst1Go : List String → Nat → List String × List String
  | [], _ => ([], [])
  | line :: rest, depth =>
    let t := line.trim
    if t = "if" ∨ strStarts t "if " then
      let r := bsConst1Go rest (depth + 1)
      (line :: r.1, r.2)
    else if t = "else" ∧ depth = 1 then ([], bsSkipElse rest)
    else if t = "end" then
      if depth = 1 then ([], rest)
      else
        let r := bsConst1Go rest (depth - 1)
        (line :: r.1, r.2)
    else
      let r := bsConst1Go rest depth
      (line :: r.1, r.2)

/-- The outer loop of `branch_simplification` (src/codegen/optimizer.rs
lines 390-479).  The fuel bounds the number of outer iterations; each
iteration consumes at least one line, so `lines.length + 1` fuel is always
enough. -/
def bsGo : Nat → List String → List String → Nat → List String × Nat
  | 0, rest, result, k => (result ++ rest, k)
  | _ + 1, [], result, k => (result, k)
  | fuel + 1, line :: rest, result, k =>
    let t := line.trim
    match rest with
    | n1 :: rest1 =>
      if t = "i64.const 0" ∧ n1.trim = "if" then
        let r := bsConst0Go rest1 1
        bsGo fuel r.2 (result ++ r.1) (k + 1)
      else if t = "i64.const 1" ∧ n1.trim = "if" then
        let r := bsConst1Go rest1 1
        bsGo fuel r.2 (result ++ r.1) (k + 1)
      else bsGo fuel rest (result ++ [line]) k
    | [] => bsGo fuel rest (result ++ [line]) k

/-- `WatOptimizer::branch_simplification`. -/
def WatOptimizer.branch_simplification (o : WatOptimizer) (wat : String) :
    String × WatOptimizer :=
  let lines := rustLines wat
  let r := bsGo (lines.length + 1) lines [] 0
  (unlines r.1,
   { o with stats :=
      { o.stats with branches_simplified := o.stats.branches_simplified + r.2 } })

/-- One `Aggressive` round: the six passes in source order
(src/codegen/optimizer.rs lines 117-124). -/
def aggressiveRound (p : String × WatOptimizer) : String × WatOptimizer :=
  let p1 := p.2.constant_propagation p.1
  let p2 := p1.2.peephole_optimization p1.1
  let p3 := p2.2.redundant_store_elimination p2.1
  let p4 := p3.2.redundant_load_elimination p3.1
  let p5 := p4.2.branch_simplification p4.1
  p5.2.dead_code_elimination p5.1

/-- `WatOptimizer::optimize` (src/codegen/optimizer.rs lines 95-129):
return the input unchanged at level `None`; otherwise apply the passes for
the level (`Aggressive` runs three rounds). -/
def WatOptimizer.optimize (o : WatOptimizer) (wat : String) :
    String × WatOptimizer :=
  if o.opt_level = OptLevel.none then (wat, o)
  else
    match o.opt_level with
    | .none => (wat, o)
    | .basic =>
        let p1 := o.constant_propagation wat
        p1.2.dead_code_elimination p1.1
    | .moderate =>
        let p1 := o.constant_propagation wat
        let p2 := p1.2.peephole_optimization p1.1
        let p3 := p2.2.redundant_store_elimination p2.1
        p3.2.dead_code_elimination p3.1
    | .aggressive => aggressiveRound (aggressiveRound (aggressiveRound (wat, o)))

/-- C9.  At level `None` the optimizer is a verbatim pass-through: it
returns its input unchanged, leaves its state untouched, and a freshly
constructed `WatOptimizer::new(None)` reports `stats().total() == 0`. -/
theorem optimize_none_identity :
    (∀ (o : WatOptimizer) (w : String), o.opt_level = OptLevel.none →
        (o.optimize w).1 = w ∧ (o.optimize w).2 = o)
    ∧ (∀ w : String,
        (((WatOptimizer.new OptLevel.none).optimize w).2).stats.total = 0) := by
  constructor
  · intro o w h
    simp [WatOptimizer.optimize, h]
  · intro w
    simp [WatOptimizer.optimize, WatOptimizer.new, OptStats.total]

/-- Witness for C9: the pass-through at a concrete input. -/
theorem optimize_none_identity_witness :
    ((WatOptimizer.new OptLevel.none).optimize "i64.const 0\ni64.add").1
      = "i64.const 0\ni64.add"
    ∧ (((WatOptimizer.new OptLevel.none).optimize "i64.const 0\ni64.add").2).stats.total
      = 0 := by
  exact ⟨(optimize_none_identity.1 _ _ rfl).1, optimize_none_identity.2 _⟩

theorem strStarts_set_get_disjoint (t : String) :
    ¬(strStarts t "global.set $x" = true ∧ strStarts t "global.get $x" = true) := by
  rintro ⟨h1, h2⟩
  unfold strStarts at h1 h2
  rw [List.isPrefixOf_iff_prefix] at h1 h2
  have e1 := List.prefix_iff_eq_take.mp h1
  have e2 := List.prefix_iff_eq_take.mp h2
  have hlen : ("global.set $x".toList).length = ("global.get $x".toList).length := by
    decide
  have : "global.set $x".toList = "global.get $x".toList := by
    rw [e1, e2, hlen]
  exact absurd this (by decide)

theorem cpInvalidate_register_empty (result : List String) (t : String) :
    cpInvalidate (cpRegister [] result t) t = [] := by
  unfold cpRegister cpInvalidate
  by_cases hset : strStarts t "global.set $x"
  · simp only [hset, reduceIte]
    cases hsp : stripPrefixS t "global.set " with
    | none =>
      cases hc : result.getLast?.bind fun prev =>
          (stripPrefixS prev.trim "i64.const ").bind parseI64 with
      | none => simp [hsp, hc]
      | some v => simp [hsp, hc]
    | some set_reg =>
      cases hc : result.getLast?.bind fun prev =>
          (stripPrefixS prev.trim "i64.const ").bind parseI64 with
      | none => simp [hsp, hc, eraseS]
      | some v => simp [hsp, hc, insertS, eraseS]
  · simp [hset]

theorem cpGo_empty (lines : List String) :
    ∀ result k, cpGo [] lines result k = (result ++ lines, k) := by
  induction lines with
  | nil => intro result k; simp [cpGo]
  | cons line rest ih =>
    intro result k
    rw [cpGo]
    by_cases hget : strStarts line.trim "global.get $x"
    · have hset : strStarts line.trim "global.set $x" = false := by
        cases h : strStarts line.trim "global.set $x"
        · rfl
        · exact absurd ⟨h, hget⟩ (strStarts_set_get_disjoint line.trim)
      have hreg : cpRegister [] result line.trim = [] := by
        unfold cpRegister
        simp [hset]
      rw [hreg]
      simp only [hget, if_true, reduceIte]
      cases hsp : stripPrefixS line.trim "global.get " with
      | none =>
        have hinv : cpInvalidate [] line.trim = [] := by
          unfold cpInvalidate
          simp [hset]
        rw [hinv, ih]
        simp
      | some r =>
        simp only [lookupS]
        have hinv : cpInvalidate [] line.trim = [] := by
          unfold cpInvalidate
          simp [hset]
        rw [hinv, ih]
        simp
    · simp only [hget, if_false, reduceIte, Bool.false_eq_true]
      rw [cpInvalidate_register_empty, ih]
      simp

/-- C8 (the code violates the claim).  `constant_propagation` can never
replace a `global.get`: the invalidation step at the bottom of the loop
(src/codegen/optimizer.rs lines 172-177) runs on the same `global.set $xK`
line that registered the constant and removes it again, so the constant map
is empty at every line.  The pass therefore returns its input lines
unchanged (with a trailing newline) and counts zero propagations — in
particular on `i64.const 42; global.set $x5; global.get $x5`, where the
claim requires the third line to become `i64.const 42`. -/
theorem constant_propagation_never_rewrites :
    (∀ (o : WatOptimizer) (w : String),
      o.constant_propagation w = (unlines (rustLines w), o))
    ∧ (WatOptimizer.new OptLevel.basic).constant_propagation
        "i64.const 42\nglobal.set $x5\nglobal.get $x5"
      = ("i64.const 42\nglobal.set $x5\nglobal.get $x5\n",
         WatOptimizer.new OptLevel.basic) := by
  have main : ∀ (o : WatOptimizer) (w : String),
      o.constant_propagation w = (unlines (rustLines w), o) := by
    intro o w
    unfold WatOptimizer.constant_propagation
    rw [cpGo_empty]
    simp
  refine ⟨main, ?_⟩
  rw [main]
  rfl

/-!
## C10: the exported `$set_reg` helper

Embedding of the `$set_reg` function of the base module WAT
(src/middleend/wasm_module.rs lines 219-506): an i32 register index and an
i64 value; index 0 returns immediately without touching any global, indices
1..=31 set exactly the matching `$xi` global, and any other index falls off
the end of the comparison chain without writing.  The register file is the
`x` map; the i32 parameter is read through `wrap32` and the stored i64
value through `wrap64`. -/

def set_reg (reg val : Int) (x : Nat → Int) : Nat → Int :=
  if wrap32 reg = 0 then x
  else if wrap32 reg = 1 then upd x 1 (wrap64 val)
  else if wrap32 reg = 2 then upd x 2 (wrap64 val)
  else if wrap32 reg = 3 then upd x 3 (wrap64 val)
  else if wrap32 reg = 4 then upd x 4 (wrap64 val)
  else if wrap32 reg = 5 then upd x 5 (wrap64 val)
  else if wrap32 reg = 6 then upd x 6 (wrap64 val)
  else if wrap32 reg = 7 then upd x 7 (wrap64 val)
  else if wrap32 reg = 8 then upd x 8 (wrap64 val)
  else if wrap32 reg = 9 then upd x 9 (wrap64 val)
  else if wrap32 reg = 10 then upd x 10 (wrap64 val)
  else if wrap32 reg = 11 then upd x 11 (wrap64 val)
  else if wrap32 reg = 12 then upd x 12 (wrap64 val)
  else if wrap32 reg = 13 then upd x 13 (wrap64 val)
  else if wrap32 reg = 14 then upd x 14 (wrap64 val)
  else if wrap32 reg = 15 then upd x 15 (wrap64 val)
  else if wrap32 reg = 16 then upd x 16 (wrap64 val)
  else if wrap32 reg = 17 then upd x 17 (wrap64 val)
  else if wrap32 reg = 18 then upd x 18 (wrap64 val)
  else if wrap32 reg = 19 then upd x 19 (wrap64 val)
  else if wrap32 reg = 20 then upd x 20 (wrap64 val)
  else if wrap32 reg = 21 then upd x 21 (wrap64 val)
  else if wrap32 reg = 22 then upd x 22 (wrap64 val)
  else if wrap32 reg = 23 then upd x 23 (wrap64 val)
  else if wrap32 reg = 24 then upd x 24 (wrap64 val)
  else if wrap32 reg = 25 then upd x 25 (wrap64 val)
  else if wrap32 reg = 26 then upd x 26 (wrap64 val)
  else if wrap32 reg = 27 then upd x 27 (wrap64 val)
  else if wrap32 reg = 28 then upd x 28 (wrap64 val)
  else if wrap32 reg = 29 then upd x 29 (wrap64 val)
  else if wrap32 reg = 30 then upd x 30 (wrap64 val)
  else if wrap32 reg = 31 then upd x 31 (wrap64 val)
  else x

set_option maxHeartbeats 4000000 in
theorem set_reg_zero_slot (reg val : Int) (x : Nat → Int) :
    set_reg reg val x 0 = x 0 := by
  unfold set_reg
  simp only [apply_ite (fun f : Nat → Int => f 0)]
  simp [upd]

set_option maxHeartbeats 4000000 in
/-- C10.  `set_reg 0 v` writes no global; `set_reg i v` for `1 ≤ i ≤ 31`
writes only `$xi` (every other slot is unchanged and slot `i` receives
`v`); and the `$x0` global stays 0 across any sequence of `set_reg` calls
starting from a state with `x0 = 0`. -/
theorem set_reg_contract :
    (∀ (v : Int) (x : Nat → Int), set_reg 0 v x = x)
    ∧ (∀ (i : Nat), 1 ≤ i → i ≤ 31 → ∀ (v : Int) (x : Nat → Int),
        set_reg i v x = upd x i (wrap64 v))
    ∧ (∀ (calls : List (Int × Int)) (x : Nat → Int), x 0 = 0 →
        (calls.foldl (fun acc c => set_reg c.1 c.2 acc) x) 0 = 0) := by
  refine ⟨?_, ?_, ?_⟩
  · intro v x
    simp [set_reg, wrap32]
  · intro i h1 h31 v x
    interval_cases i <;> simp [set_reg, wrap32]
  · intro calls
    induction calls with
    | nil => intro x hx; exact hx
    | cons c rest ih =>
      intro x hx
      exact ih (set_reg c.1 c.2 x) (by rw [set_reg_zero_slot]; exact hx)

/-- Witness for C10: `set_reg` at indices 0 and 5 on the zero register
file, and a concrete call sequence. -/
theorem set_reg_contract_witness :
    set_reg 0 9 (fun _ => 0) = (fun _ => 0)
    ∧ set_reg 5 7 (fun _ => 0) = upd (fun _ => 0) 5 (wrap64 7)
    ∧ ([((1:Int), (7:Int)), (0, 9), (31, -4)].foldl
        (fun acc c => set_reg c.1 c.2 acc) (fun _ => 0)) 0 = 0 := by
  obtain ⟨h1, h2, h3⟩ := set_reg_contract
  exact ⟨h1 9 _, h2 5 (by decide) (by decide) 7 _,
         h3 [((1:Int), (7:Int)), (0, 9), (31, -4)] (fun _ => 0) rfl⟩

end DoubleJit